import Mathlib

/-
  Verification development for the Discord-Collector reaction-role manager
  (src/src/reaction-role/manager.js).

  The manager keeps a registry of reaction-role bindings and reconciles them
  against live reaction state.  We give a shallow embedding: the manager's
  mutable state (registry, warned-permission set, pending toggle settlements,
  event log) and the external world it mutates (member role sets, reaction
  sets, guild roles) become one explicit state record, and each handler of
  manager.js becomes a state-transition function translated line by line.

  manager.js requires `./reactionRole` and `../util/constants`, which are not
  part of the sources; the accessor predicates they provide (the kind flags
  `isToggle`/`isReversed`/`isJustWin`/`isJustLose`, and the requirement checks
  `checkBoostRequirement`/`checkDeveloperRequirement`) are modelled from the
  spec where noted.  Machine integers (`max`, compared with `>=`/`>` in JS)
  are modelled as `Int`; ids are strings, as in the source.
-/

namespace DiscordCollector

/-- Action passed to `__handleReactionRoleAction`: `ActionType.GIVE` / `ActionType.TAKE`
(constants.js is not in the sources; manager.js only ever distinguishes the two). -/
inductive RRAction
  | give
  | take
deriving DecidableEq, Repr

/-- Requirement kinds used by the `missingRequirements` event
(`RequirementType.BOOST` / `RequirementType.VERIFIED_DEVELOPER`). -/
inductive Requirement
  | boost
  | verifiedDeveloper
deriving DecidableEq, Repr

/-- One reaction-role binding (the `ReactionRole` entity).  Fields are those
manager.js reads: composite id (`message-emoji`), location ids, role-id list,
`max`, the four kind flags, the two requirement flags, `disabled`, `winners`.
The kind flags are modelled from the spec as independent booleans since
reactionRole.js (which derives them from the numeric `type`) is not in the
sources; manager.js only reads the boolean accessors. -/
structure RR where
  id : String
  message : String
  channel : String
  guild : String
  emoji : String
  roles : List String
  max : Int
  isToggle : Bool
  isReversed : Bool
  isJustWin : Bool
  isJustLose : Bool
  reqBoost : Bool
  reqVerifiedDeveloper : Bool
  disabled : Bool
  winners : List String
deriving DecidableEq, Repr

/-- A guild role as the manager sees it: its id and whether the bot may edit it
(`role.editable`). -/
structure GuildRole where
  id : String
  editable : Bool
deriving DecidableEq, Repr

/-- A guild member: id plus the attributes the requirement checks consult. -/
structure Member where
  id : String
  boosting : Bool
  verifiedDeveloper : Bool
deriving DecidableEq, Repr

/-- The external, mutable world the manager acts on.
`memberRoles` is the set of (memberId, roleId) pairs a member holds
(`member.roles.cache`); `reactions` is the set of
(messageId, emojiId, userId) reactions on messages; `members` is the guild
member cache; `botUsers` is the set of user ids flagged `user.bot`. -/
structure World where
  guildRoles : List GuildRole
  memberRoles : List (String × String)
  reactions : List (String × String × String)
  members : List Member
  botUsers : List String
deriving DecidableEq, Repr

/-- Domain events the manager emits. -/
inductive Ev
  | roleAdd (memberId roleId : String)
  | roleRemove (memberId roleId : String)
  | missingRequirements (t : Requirement) (memberId rrId : String)
  | missingPermissions (action : RRAction) (memberId : String) (roleIds : List String) (rrId : String)
  | allReactionsRemove (messageId : String) (roleIds : List String) (memberIds : List String) (reactionsTaken : Nat)
deriving DecidableEq, Repr

/-- Complete manager + world state.  `warned` is `__withoutPermissionsWarned`
(a set of `"roleId-memberId"` strings); `pendingSettles` models the per-member
toggle-settlement timers of `this.timeouts` (memberId, messageId, candidate
binding id). -/
structure MState where
  reactionRoles : List RR
  warned : List String
  pendingSettles : List (String × String × Option String)
  world : World
  events : List Ev
deriving DecidableEq, Repr

/-- The pre-grant / pre-revoke hooks (`IHooks`); arguments are
(memberId, roleId, reactionRoleId). -/
structure Hooks where
  preRoleAddHook : String → String → String → Bool
  preRoleRemoveHook : String → String → String → Bool

/-- The default hooks: both always return `true` (manager.js constructor). -/
def trueHooks : Hooks :=
  { preRoleAddHook := fun _ _ _ => true
    preRoleRemoveHook := fun _ _ _ => true }

/-- Key stored in `__withoutPermissionsWarned`. -/
def rkey (roleId memberId : String) : String := roleId ++ "-" ++ memberId

/-- roles.map(role => member.guild.roles.resolve(role)).filter(role => role). -/
def resolveRoles (w : World) (ids : List String) : List GuildRole :=
  ids.filterMap (fun i => w.guildRoles.find? (fun g => g.id == i))

/-- member.roles.cache.has(roleId). -/
def hasRole (w : World) (memberId roleId : String) : Bool :=
  w.memberRoles.any (fun p => p.1 == memberId && p.2 == roleId)

/-- member.roles.add(roleId). -/
def addRole (w : World) (memberId roleId : String) : World :=
  { w with memberRoles := w.memberRoles ++ [(memberId, roleId)] }

/-- member.roles.remove(roleId). -/
def removeRole (w : World) (memberId roleId : String) : World :=
  { w with memberRoles := w.memberRoles.filter (fun p => !(p.1 == memberId && p.2 == roleId)) }

/-- reaction.users.fetch() for the reaction identified by (messageId, emojiId):
the ids of the users currently reacting. -/
def reactors (w : World) (messageId emojiId : String) : List String :=
  (w.reactions.filter (fun t => t.1 == messageId && t.2.1 == emojiId)).map (fun t => t.2.2)

/-- reaction.users.remove(userId). -/
def removeUserReaction (w : World) (messageId emojiId userId : String) : World :=
  { w with reactions :=
      w.reactions.filter (fun t => !(t.1 == messageId && t.2.1 == emojiId && t.2.2 == userId)) }

/-- reaction.remove(): deletes the whole reaction (every user). -/
def removeWholeReaction (w : World) (messageId emojiId : String) : World :=
  { w with reactions := w.reactions.filter (fun t => !(t.1 == messageId && t.2.1 == emojiId)) }

/-- this.reactionRoles.get(id) / find by id. -/
def findRR (s : MState) (rrId : String) : Option RR :=
  s.reactionRoles.find? (fun r => r.id == rrId)

/-- Write a (mutated) binding back into the registry.  JS mutates the object
held by the `Collection` in place; the registry is keyed by id, so the
functional update replaces the entry with that id. -/
def updateRR (s : MState) (rr : RR) : MState :=
  { s with reactionRoles := s.reactionRoles.map (fun r => if r.id == rr.id then rr else r) }

/-- Append an emitted event to the log. -/
def emit (s : MState) (e : Ev) : MState :=
  { s with events := s.events ++ [e] }

/-- Replace the state's world. -/
def withWorld (s : MState) (w : World) : MState :=
  { s with world := w }

/-- __checkRolesPermissions (lines 1048-1067): resolve the binding's roles,
warn once per (role, member) pair about unmanageable roles, return the
editable subset. -/
def checkRolesPermissions (action : RRAction) (rr : RR) (memberId : String) (s : MState) :
    List GuildRole × MState :=
  let roles := resolveRoles s.world rr.roles
  let rolesWithoutPermission :=
    roles.filter (fun role => !role.editable && !(s.warned.contains (rkey role.id memberId)))
  let rolesWithPermission := roles.filter (fun role => role.editable)
  if rolesWithoutPermission.length > 0 then
    (rolesWithPermission,
      { s with
          warned := s.warned ++ rolesWithoutPermission.map (fun role => rkey role.id memberId)
          events := s.events ++
            [Ev.missingPermissions action memberId
              (rolesWithoutPermission.map (fun role => role.id)) rr.id] })
  else
    (rolesWithPermission, s)

/-- Modelled from the spec: `reactionRole.checkBoostRequirement(member)` lives in
reactionRole.js (not in the sources); per spec section 4.2 it passes unless the
binding requires boosting and the member is not boosting. -/
def checkBoostRequirement (rr : RR) (m : Member) : Bool :=
  !rr.reqBoost || m.boosting

/-- Modelled from the spec: `reactionRole.checkDeveloperRequirement(member)` lives
in reactionRole.js (not in the sources); per spec section 4.2 it passes unless
the binding requires a verified developer and the member is not one. -/
def checkDeveloperRequirement (rr : RR) (m : Member) : Bool :=
  !rr.reqVerifiedDeveloper || m.verifiedDeveloper

/-- __checkRequirements (lines 471-504): short-circuit check of the two
requirement flags; on the first failure emit `missingRequirements`, remove the
member's reaction and report `false`. -/
def checkRequirements (rr : RR) (m : Member) (s : MState) : Bool × MState :=
  if !(checkBoostRequirement rr m) then
    (false,
      { s with
          events := s.events ++ [Ev.missingRequirements Requirement.boost m.id rr.id]
          world := removeUserReaction s.world rr.message rr.emoji m.id })
  else if !(checkDeveloperRequirement rr m) then
    (false,
      { s with
          events := s.events ++ [Ev.missingRequirements Requirement.verifiedDeveloper m.id rr.id]
          world := removeUserReaction s.world rr.message rr.emoji m.id })
  else
    (true, s)

/-- The GIVE loop of __handleReactionRoleAction (lines 996-1011): for each
authorized role, if the pre-add hook allows and the member lacks the role, add
it, emit `reactionRoleAdd`, and append the member to `winners` if absent. -/
def giveRolesLoop (hooks : Hooks) (m : Member) :
    List GuildRole → RR → MState → RR × MState
  | [], rr, s => (rr, s)
  | role :: rest, rr, s =>
    if hooks.preRoleAddHook m.id role.id rr.id && !(hasRole s.world m.id role.id) then
      let s1 := emit (withWorld s (addRole s.world m.id role.id)) (Ev.roleAdd m.id role.id)
      let rr1 := if rr.winners.contains m.id then rr else { rr with winners := rr.winners ++ [m.id] }
      giveRolesLoop hooks m rest rr1 s1
    else
      giveRolesLoop hooks m rest rr s

/-- The TAKE loop of __handleReactionRoleAction (lines 1016-1026): for each
authorized role, if the pre-remove hook allows and the member holds the role,
remove it and emit `reactionRoleRemove`. -/
def takeRolesLoop (hooks : Hooks) (m : Member) (rrId : String) :
    List GuildRole → MState → MState
  | [], s => s
  | role :: rest, s =>
    if hooks.preRoleRemoveHook m.id role.id rrId && hasRole s.world m.id role.id then
      takeRolesLoop hooks m rrId rest
        (emit (withWorld s (removeRole s.world m.id role.id)) (Ev.roleRemove m.id role.id))
    else
      takeRolesLoop hooks m rrId rest s

/-- The `case ActionType.GIVE` arm of __handleReactionRoleAction
(lines 980-1013): capacity check (remove the reaction when `winners` is
full), requirement check, hand-off to the toggle settlement timer for TOGGLE
bindings, otherwise the role-granting loop. -/
def handleGive (hooks : Hooks) (m : Member) (rr : RR) (rolesWithPermission : List GuildRole)
    (s1 : MState) : MState :=
  if (rr.winners.length : Int) ≥ rr.max ∧ rr.max > 0 then
    withWorld s1 (removeUserReaction s1.world rr.message rr.emoji m.id)
  else
    let q := checkRequirements rr m s1
    if !q.1 then q.2
    else if rr.isToggle then
      { q.2 with pendingSettles :=
          q.2.pendingSettles.filter (fun t => !(t.1 == m.id)) ++
            [(m.id, rr.message, some rr.id)] }
    else
      let g := giveRolesLoop hooks m rolesWithPermission rr q.2
      updateRR g.2 g.1

/-- The `case ActionType.TAKE` arm of __handleReactionRoleAction
(lines 1015-1034): role-removing loop, then splice the member out of
`winners` if present. -/
def handleTake (hooks : Hooks) (m : Member) (rr : RR) (rolesWithPermission : List GuildRole)
    (s1 : MState) : MState :=
  let s2 := takeRolesLoop hooks m rr.id rolesWithPermission s1
  let rr1 := if rr.winners.contains m.id then
      { rr with winners := rr.winners.erase m.id }
    else rr
  updateRR s2 rr1

/-- __handleReactionRoleAction (lines 960-1039), the grant/revoke policy
pipeline.  Scheduling a toggle settlement (`__timeoutToggledRoles` call at
line 992) is modelled by replacing the member's entry in `pendingSettles`. -/
def handleReactionRoleAction (hooks : Hooks) (action : RRAction) (m : Member) (rrId : String)
    (s : MState) : MState :=
  match findRR s rrId with
  | none => s
  | some rr =>
    if rr.disabled then s
    else
      let action := if rr.isReversed then
          (match action with | .give => .take | .take => .give)
        else action
      if rr.isJustLose && action == .give then
        withWorld s (removeUserReaction s.world rr.message rr.emoji m.id)
      else if rr.isJustWin && action == .take then s
      else
        let p := checkRolesPermissions action rr m.id s
        match action with
        | .give => handleGive hooks m rr p.1 p.2
        | .take => handleTake hooks m rr p.1 p.2

/-- The effective action after the REVERSED flip (line 962); a proof-side view
of the handler, equated to it by `handleRRA_unfold` below. -/
def effectiveAction (rr : RR) (a : RRAction) : RRAction :=
  if rr.isReversed then (match a with | .give => .take | .take => .give) else a

/-- The post-dispatch body of the handler as a function of the effective
action; a proof-side view of the handler, equated to it by `handleRRA_unfold`
below. -/
def handleBody (hooks : Hooks) (m : Member) (rr : RR) (s : MState) (act : RRAction) : MState :=
  if rr.isJustLose && (act == .give) then
    withWorld s (removeUserReaction s.world rr.message rr.emoji m.id)
  else if rr.isJustWin && (act == .take) then s
  else
    match act with
    | .give => handleGive hooks m rr (checkRolesPermissions .give rr m.id s).1
        (checkRolesPermissions .give rr m.id s).2
    | .take => handleTake hooks m rr (checkRolesPermissions .take rr m.id s).1
        (checkRolesPermissions .take rr m.id s).2

/-- The revoke loop inside the settlement timer body of __timeoutToggledRoles
(lines 761-804).  It walks the message's TOGGLE bindings, keeps (or elects)
the skipped candidate, and for every other binding splices the member out of
`winners`, removes the role only if `member.roles.cache.has(toggledRole.id)`
holds (line 789 tests the binding's composite id, exactly as the source does),
and removes the member's reaction.  `none` models the TypeError the source
would throw when `roles[0]` does not resolve to a guild role. -/
def settleRevokeIter (hooks : Hooks) (m : Member) (msgId : String) :
    List String → Option String → MState → Option (Option String × MState)
  | [], skipped, s => some (skipped, s)
  | rrId :: rest, skipped, s =>
    match findRR s rrId with
    | none => settleRevokeIter hooks m msgId rest skipped s
    | some rr =>
      if rr.disabled then settleRevokeIter hooks m msgId rest skipped s
      else
        let users := reactors s.world msgId rr.emoji
        if users.contains m.id && (skipped.isNone || skipped == some rr.id) then
          settleRevokeIter hooks m msgId rest (some rr.id) s
        else
          let roleId := rr.roles.headD ""
          match s.world.guildRoles.find? (fun g => g.id == roleId) with
          | none => none
          | some role =>
            let s1 := (checkRolesPermissions .take rr m.id s).2
            if role.editable && hooks.preRoleRemoveHook m.id role.id rr.id then
              let rr1 := if rr.winners.contains m.id then
                  { rr with winners := rr.winners.erase m.id }
                else rr
              let s2 := updateRR s1 rr1
              let s3 :=
                if hasRole s2.world m.id rr.id then
                  emit (withWorld s2 (removeRole s2.world m.id roleId)) (Ev.roleRemove m.id roleId)
                else s2
              let s4 :=
                if users.contains m.id then
                  withWorld s3 (removeUserReaction s3.world msgId rr.emoji m.id)
                else s3
              settleRevokeIter hooks m msgId rest skipped s4
            else
              settleRevokeIter hooks m msgId rest skipped
                (withWorld s1 (removeUserReaction s1.world msgId rr.emoji m.id))

/-- The candidate-grant tail of the settlement timer body (lines 806-850):
if a skipped candidate survived, grant it, guarded by `role.editable`, the
requirement check and the pre-add hook (short-circuit, each later guard's
side effects only run when the earlier ones pass); on any guard failing,
remove the member's reaction instead. -/
def settleGrant (hooks : Hooks) (m : Member) (msgId : String) (skipped : Option String)
    (s : MState) : Option MState :=
  match skipped with
  | none => some s
  | some skId =>
    match findRR s skId with
    | none => some s
    | some sk =>
      let roleId := sk.roles.headD ""
      match s.world.guildRoles.find? (fun g => g.id == roleId) with
      | none => none
      | some role =>
        let s1 := (checkRolesPermissions .give sk m.id s).2
        if !role.editable then
          some (withWorld s1 (removeUserReaction s1.world msgId sk.emoji m.id))
        else
          let q := checkRequirements sk m s1
          if !q.1 then
            some (withWorld q.2 (removeUserReaction q.2.world msgId sk.emoji m.id))
          else if !(hooks.preRoleAddHook m.id role.id sk.id) then
            some (withWorld q.2 (removeUserReaction q.2.world msgId sk.emoji m.id))
          else
            let sk1 := if sk.winners.contains m.id then sk
              else { sk with winners := sk.winners ++ [m.id] }
            let s2 := updateRR q.2 sk1
            let s3 :=
              if !(hasRole s2.world m.id roleId) then
                emit (withWorld s2 (addRole s2.world m.id roleId)) (Ev.roleAdd m.id roleId)
              else s2
            some s3

/-- The whole settlement timer body of __timeoutToggledRoles (lines 760-853):
snapshot the message's TOGGLE bindings, run the revoke loop, then the
candidate grant.  (The scheduling wrapper - lock retries, clearTimeout,
setTimeout - is modelled by `pendingSettles` in the handler.) -/
def timeoutToggledRolesSettle (hooks : Hooks) (m : Member) (msgId : String)
    (skipped : Option String) (s : MState) : Option MState :=
  let ids := (s.reactionRoles.filter (fun r => r.message == msgId && r.isToggle)).map (fun r => r.id)
  match settleRevokeIter hooks m msgId ids skipped s with
  | none => none
  | some (skipped1, s1) => settleGrant hooks m msgId skipped1 s1

/-- The per-reactor GIVE loop of __resfreshOnBoot (lines 396-412): skip bots,
remove reactions of users who are not guild members, and run the GIVE path for
everyone else. -/
def bootGiveLoop (hooks : Hooks) (rrId : String) :
    List String → MState → MState
  | [], s => s
  | userId :: rest, s =>
    if s.world.botUsers.contains userId then bootGiveLoop hooks rrId rest s
    else
      match s.world.members.find? (fun mm => mm.id == userId) with
      | none =>
        match findRR s rrId with
        | none => bootGiveLoop hooks rrId rest s
        | some rr =>
          bootGiveLoop hooks rrId rest
            (withWorld s (removeUserReaction s.world rr.message rr.emoji userId))
      | some mem =>
        bootGiveLoop hooks rrId rest (handleReactionRoleAction hooks .give mem rrId s)

/-- The winners loop of __resfreshOnBoot (lines 414-431): an index loop over
the live `winners` array (which the loop itself and the TAKE path mutate, so
the index is re-read against the current array each iteration exactly as the
JS `for` loop does); missing members are spliced out, bots skipped, and
winners no longer among the fetched reactors get the TAKE path.  `fuel` bounds
the iteration count; the array never grows during this loop, so fuel equal to
its starting length makes the recursion reach the same exit the JS loop does. -/
def bootWinnersLoop (hooks : Hooks) (rrId : String) (users : List String) :
    Nat → Nat → MState → MState
  | 0, _, s => s
  | fuel + 1, j, s =>
    match findRR s rrId with
    | none => s
    | some rr =>
      match rr.winners[j]? with
      | none => s
      | some winnerId =>
        match s.world.members.find? (fun mm => mm.id == winnerId) with
        | none =>
          bootWinnersLoop hooks rrId users fuel (j + 1)
            (updateRR s { rr with winners := rr.winners.eraseIdx j })
        | some mem =>
          if s.world.botUsers.contains winnerId then
            bootWinnersLoop hooks rrId users fuel (j + 1) s
          else if !(users.contains winnerId) then
            bootWinnersLoop hooks rrId users fuel (j + 1)
              (handleReactionRoleAction hooks .take mem rrId s)
          else
            bootWinnersLoop hooks rrId users fuel (j + 1) s

/-- Per-binding boot reconciliation of __resfreshOnBoot (lines 394-431), from
the point where the message and its reaction resolved: fetch the reactor
snapshot once, run the GIVE loop over it, then the winners loop against the
same snapshot. -/
def bootReconcileBinding (hooks : Hooks) (rrId : String) (s : MState) : MState :=
  match findRR s rrId with
  | none => s
  | some rr =>
    let users := reactors s.world rr.message rr.emoji
    let s1 := bootGiveLoop hooks rrId users s
    let fuel := match findRR s1 rrId with
      | none => 0
      | some r => r.winners.length
    bootWinnersLoop hooks rrId users fuel 0 s1

/-- deleteReactionRole (lines 580-621) in its default configuration
(`disabledProperty = true`, the constructor default): soft delete, the binding
stays in the registry with `disabled := true` and is re-stored. -/
def deleteReactionRole (s : MState) (rrId : String) : MState :=
  match findRR s rrId with
  | none => s
  | some rr => updateRR s { rr with disabled := true }

/-- The resolution results the external collaborator hands __handleDeleted:
whether `client.guilds.resolve(guildResolvable)` yields a guild, whether the
binding's channel is in that guild's cache, whether the message fetch yields a
message, and whether the bot's reaction is found on it. -/
structure DeleteEnv where
  guildResolved : Bool
  channelPresent : Bool
  messagePresent : Bool
  reactionPresent : Bool
deriving DecidableEq, Repr

/-- __handleDeleted (lines 264-280): walk the guild, channel, message, reaction
resolution chain; on the first link that fails, soft-delete the binding.  When
the whole chain resolves, only the bot's reaction is removed from the message
and the binding is left untouched. -/
def handleDeleted (env : DeleteEnv) (rrId : String) (s : MState) : MState :=
  if !env.guildResolved then deleteReactionRole s rrId
  else if !env.channelPresent then deleteReactionRole s rrId
  else if !env.messagePresent then deleteReactionRole s rrId
  else if !env.reactionPresent then deleteReactionRole s rrId
  else
    match findRR s rrId with
    | none => s
    | some rr => withWorld s (removeWholeReaction s.world rr.message rr.emoji)

/-- The inner role loop of __onRemoveAllReaction (lines 926-934), over the
authorized roles of one winner; accumulates affected members/roles. -/
def removeAllRolesLoop (hooks : Hooks) (rrId : String) (memberId : String) :
    List GuildRole → List String → List String → MState →
    List String × List String × MState
  | [], affM, affR, s => (affM, affR, s)
  | role :: rest, affM, affR, s =>
    let step :=
      if hooks.preRoleRemoveHook memberId role.id rrId then
        (if affM.contains memberId then affM else affM ++ [memberId],
          withWorld s (removeRole s.world memberId role.id))
      else (affM, s)
    let affR1 := if affR.contains role.id then affR else affR ++ [role.id]
    removeAllRolesLoop hooks rrId memberId rest step.1 affR1 step.2

/-- The winners loop of __onRemoveAllReaction (lines 916-936): for each winner
still in the guild, run the permission check and strip the authorized roles,
counting one taken reaction per processed winner. -/
def removeAllWinnersLoop (hooks : Hooks) (rr : RR) :
    List String → List String → List String → Nat → MState →
    List String × List String × Nat × MState
  | [], affM, affR, taken, s => (affM, affR, taken, s)
  | winnerId :: rest, affM, affR, taken, s =>
    match s.world.members.find? (fun mm => mm.id == winnerId) with
    | none => removeAllWinnersLoop hooks rr rest affM affR taken s
    | some _ =>
      let p := checkRolesPermissions .take rr winnerId s
      let r := removeAllRolesLoop hooks rr.id winnerId p.1 affM affR p.2
      removeAllWinnersLoop hooks rr rest r.1 r.2.1 (taken + 1) r.2.2

/-- The outer binding loop of __onRemoveAllReaction (lines 914-942). -/
def removeAllBindingsLoop (hooks : Hooks) :
    List String → List String → List String → Nat → MState →
    List String × List String × Nat × MState
  | [], affM, affR, taken, s => (affM, affR, taken, s)
  | rrId :: rest, affM, affR, taken, s =>
    match findRR s rrId with
    | none => removeAllBindingsLoop hooks rest affM affR taken s
    | some rr =>
      let r := removeAllWinnersLoop hooks rr rr.winners affM affR taken s
      removeAllBindingsLoop hooks rest r.1 r.2.1 r.2.2.1 (deleteReactionRole r.2.2.2 rrId)

/-- __onRemoveAllReaction (lines 906-951): with no binding registered on the
message it returns before doing anything; otherwise it strips every winner's
authorized roles, soft-deletes each binding, and emits `allReactionsRemove`. -/
def onRemoveAllReaction (hooks : Hooks) (msgId : String) (s : MState) : MState :=
  let ids := (s.reactionRoles.filter (fun r => r.message == msgId)).map (fun r => r.id)
  if ids.length == 0 then s
  else
    let r := removeAllBindingsLoop hooks ids [] [] 0 s
    emit r.2.2.2 (Ev.allReactionsRemove msgId r.2.1 r.1 r.2.2.1)

/-- State of the readiness gate of __readyTimeout (lines 857-868): the
`isReady` flag, the pending `ready_timeout` timer (with its delay in
milliseconds), and how many `ready` events have been emitted. -/
structure ReadyState where
  isReady : Bool
  pending : Option Nat
  readyCount : Nat
deriving DecidableEq, Repr

/-- __readyTimeout (lines 857-868): clear any pending ready timer; if the
manager is already ready do nothing more, otherwise start a fresh 5000 ms
timer. -/
def readyTimeoutStep (s : ReadyState) : ReadyState :=
  let s1 : ReadyState := { s with pending := none }
  if s1.isReady then s1
  else { s1 with pending := some 5000 }

/-- The pending ready timer fires (the setTimeout callback, lines 862-867):
mark ready and emit `ready`. -/
def fireReadyStep (s : ReadyState) : ReadyState :=
  match s.pending with
  | none => s
  | some _ => { isReady := true, pending := none, readyCount := s.readyCount + 1 }

/-- An event in the life of the readiness gate: a binding finished boot
processing (a __readyTimeout call), or the pending timer fired. -/
inductive ReadyOp
  | call
  | fire
deriving DecidableEq, Repr

/-- Run a sequence of readiness-gate events. -/
def runReady : List ReadyOp → ReadyState → ReadyState
  | [], s => s
  | ReadyOp.call :: rest, s => runReady rest (readyTimeoutStep s)
  | ReadyOp.fire :: rest, s => runReady rest (fireReadyStep s)

/-- The manager's initial readiness state (`isReady = false`, no timer). -/
def readyInit : ReadyState := { isReady := false, pending := none, readyCount := 0 }

/-- Invariant of the readiness gate. -/
def ReadyInv (s : ReadyState) : Prop :=
  (s.isReady = true → s.readyCount = 1 ∧ s.pending = none) ∧
  (s.isReady = false → s.readyCount = 0) ∧
  (∀ d, s.pending = some d → d = 5000)

/-- Number.MAX_SAFE_INTEGER. -/
def maxSafeInteger : Int := 2 ^ 53 - 1

/-- The `max` normalization of createReactionRole (line 536):
`if (!max || max > Number.MAX_SAFE_INTEGER || max < 0) max = Number.MAX_SAFE_INTEGER`.
An absent argument is `none`; JS `!max` on a number is true exactly for 0
(floats and NaN are outside this integer model). -/
def normalizeMax (max : Option Int) : Int :=
  match max with
  | none => maxSafeInteger
  | some v => if v == 0 || v > maxSafeInteger || v < 0 then maxSafeInteger else v

/-- createReactionRole (lines 519-569), reduced to its validation and
construction logic.  External resolutions are passed in resolved form:
`guildMessage` is `message.guild` being present, `typeValid` is the
`isValidReactionRoleType` outcome (constants.js is not in the sources),
`resolvedRoles` is the role list after `resolveID`+filter, `emojiResolved`
the resolved emoji identifier.  The kind flags stand for the accessors the
constructed `ReactionRole` derives from `type` (reactionRole.js is not in the
sources; manager.js only reads the flags). -/
def createReactionRole (guildMessage typeValid : Bool) (resolvedRoles : List String)
    (emojiResolved : Option String) (maxIn : Option Int)
    (msgId channelId guildId : String)
    (isToggle isReversed isJustWin isJustLose reqBoost reqDev : Bool) : Option RR :=
  if !guildMessage then none
  else if !typeValid then none
  else
    let max := normalizeMax maxIn
    if resolvedRoles.length == 0 then none
    else
      match emojiResolved with
      | none => none
      | some emo =>
        some
          { id := msgId ++ "-" ++ emo
            message := msgId
            channel := channelId
            guild := guildId
            emoji := emo
            roles := resolvedRoles
            max := max
            isToggle := isToggle
            isReversed := isReversed
            isJustWin := isJustWin
            isJustLose := isJustLose
            reqBoost := reqBoost
            reqVerifiedDeveloper := reqDev
            disabled := false
            winners := [] }

/- Concrete scenario states used by the counterexample / failing-input
theorems below. -/

/-- A member with no special attributes. -/
def plainMember (i : String) : Member :=
  { id := i, boosting := false, verifiedDeveloper := false }

/-- Scenario (capacity): a TOGGLE binding on message `M` with `max = 1`. -/
def c1Binding : RR :=
  { id := "M-e1", message := "M", channel := "CH", guild := "G", emoji := "e1"
    roles := ["R1"], max := 1
    isToggle := true, isReversed := false, isJustWin := false, isJustLose := false
    reqBoost := false, reqVerifiedDeveloper := false, disabled := false, winners := [] }

/-- Scenario (capacity): members `X` and `Y` have both reacted with `e1`;
the role `R1` is editable; nobody holds any role yet. -/
def c1Start : MState :=
  { reactionRoles := [c1Binding]
    warned := []
    pendingSettles := []
    world :=
      { guildRoles := [{ id := "R1", editable := true }]
        memberRoles := []
        reactions := [("M", "e1", "X"), ("M", "e1", "Y")]
        members := [plainMember "X", plainMember "Y"]
        botUsers := [] }
    events := [] }

/-- Scenario (capacity): both reaction-add events are processed (each passes
the capacity check, since no settlement has run yet, and schedules a
settlement), then both scheduled settlements run. -/
def c1AfterHandlers : MState :=
  handleReactionRoleAction trueHooks .give (plainMember "Y") "M-e1"
    (handleReactionRoleAction trueHooks .give (plainMember "X") "M-e1" c1Start)

/-- Scenario (capacity): the final state after the two scheduled toggle
settlements execute in order. -/
def c1Final : Option MState :=
  (timeoutToggledRolesSettle trueHooks (plainMember "X") "M" (some "M-e1") c1AfterHandlers).bind
    (timeoutToggledRolesSettle trueHooks (plainMember "Y") "M" (some "M-e1"))

/-- Scenario (toggle revoke): TOGGLE binding `M-e1` for role `R1`; the member
holds `R1` and is a recorded winner. -/
def c2BindingOne : RR :=
  { id := "M-e1", message := "M", channel := "CH", guild := "G", emoji := "e1"
    roles := ["R1"], max := maxSafeInteger
    isToggle := true, isReversed := false, isJustWin := false, isJustLose := false
    reqBoost := false, reqVerifiedDeveloper := false, disabled := false, winners := ["X"] }

/-- Scenario (toggle revoke): TOGGLE binding `M-e2` for role `R2`, the kept
candidate. -/
def c2BindingTwo : RR :=
  { id := "M-e2", message := "M", channel := "CH", guild := "G", emoji := "e2"
    roles := ["R2"], max := maxSafeInteger
    isToggle := true, isReversed := false, isJustWin := false, isJustLose := false
    reqBoost := false, reqVerifiedDeveloper := false, disabled := false, winners := [] }

/-- Scenario (toggle revoke): member `X` holds `R1`, has reactions on both
options, and a settlement is due with candidate `M-e2`; both roles are
editable. -/
def c2Start : MState :=
  { reactionRoles := [c2BindingOne, c2BindingTwo]
    warned := []
    pendingSettles := []
    world :=
      { guildRoles := [{ id := "R1", editable := true }, { id := "R2", editable := true }]
        memberRoles := [("X", "R1")]
        reactions := [("M", "e1", "X"), ("M", "e2", "X")]
        members := [plainMember "X"]
        botUsers := [] }
    events := [] }

/-- Scenario (toggle revoke): the state after the settlement for member `X`
with kept candidate `M-e2` runs. -/
def c2Final : Option MState :=
  timeoutToggledRolesSettle trueHooks (plainMember "X") "M" (some "M-e2") c2Start

/-- Scenario (cascade delete): an enabled NORMAL binding. -/
def c3Binding : RR :=
  { id := "M-e1", message := "M", channel := "CH", guild := "G", emoji := "e1"
    roles := ["R1"], max := maxSafeInteger
    isToggle := false, isReversed := false, isJustWin := false, isJustLose := false
    reqBoost := false, reqVerifiedDeveloper := false, disabled := false, winners := [] }

/-- Scenario (cascade delete): registry state holding only `c3Binding`. -/
def c3Start : MState :=
  { reactionRoles := [c3Binding]
    warned := []
    pendingSettles := []
    world :=
      { guildRoles := []
        memberRoles := []
        reactions := [("M", "e1", "U")]
        members := []
        botUsers := [] }
    events := [] }

/-- Scenario (cascade delete): a deletion event for which the guild, channel,
message and bot reaction all still resolve (as when only the referenced role
was deleted). -/
def c3IntactEnv : DeleteEnv :=
  { guildResolved := true, channelPresent := true, messagePresent := true, reactionPresent := true }

/-- Scenario (cascade delete): a deletion event whose guild resolution fails. -/
def c3BrokenEnv : DeleteEnv :=
  { guildResolved := false, channelPresent := true, messagePresent := true, reactionPresent := true }

/-- Scenario (empty authorized subset): a NORMAL binding whose single role
cannot be resolved in the guild, with `X` a recorded winner. -/
def c5Binding : RR :=
  { id := "M-e1", message := "M", channel := "CH", guild := "G", emoji := "e1"
    roles := ["R1"], max := maxSafeInteger
    isToggle := false, isReversed := false, isJustWin := false, isJustLose := false
    reqBoost := false, reqVerifiedDeveloper := false, disabled := false, winners := ["X"] }

/-- Scenario (empty authorized subset): the guild has no roles at all, so the
permission check returns the empty subset. -/
def c5Start : MState :=
  { reactionRoles := [c5Binding]
    warned := []
    pendingSettles := []
    world :=
      { guildRoles := []
        memberRoles := []
        reactions := []
        members := [plainMember "X"]
        botUsers := [] }
    events := [] }

/-- Scenario (empty authorized subset): a reaction-removed event for `X` is
processed. -/
def c5Final : MState :=
  handleReactionRoleAction trueHooks .take (plainMember "X") "M-e1" c5Start

/-- Scenario (idempotence): a NORMAL binding for role `R1` whose winner `X`
already holds the role. -/
def c6Binding : RR :=
  { id := "M-e1", message := "M", channel := "CH", guild := "G", emoji := "e1"
    roles := ["R1"], max := maxSafeInteger
    isToggle := false, isReversed := false, isJustWin := false, isJustLose := false
    reqBoost := false, reqVerifiedDeveloper := false, disabled := false, winners := ["X"] }

/-- Scenario (idempotence): member `X` already holds the editable role `R1`. -/
def c6Start : MState :=
  { reactionRoles := [c6Binding]
    warned := []
    pendingSettles := []
    world :=
      { guildRoles := [{ id := "R1", editable := true }]
        memberRoles := [("X", "R1")]
        reactions := [("M", "e1", "X")]
        members := [plainMember "X"]
        botUsers := [] }
    events := [] }

/-- Scenario (permission warnings): like `c6Start` but the role `R1` is not
editable by the bot, so the permission check warns. -/
def c7Start : MState :=
  { reactionRoles := [c6Binding]
    warned := []
    pendingSettles := []
    world :=
      { guildRoles := [{ id := "R1", editable := false }]
        memberRoles := [("X", "R1")]
        reactions := [("M", "e1", "X")]
        members := [plainMember "X"]
        botUsers := [] }
    events := [] }

/-- Scenario (creation): the binding built by `createReactionRole` for message
`M`, emoji `e1`, role `R1` with a supplied `max` of 0 (normalized to
`Number.MAX_SAFE_INTEGER`). -/
def c9Created : RR :=
  { id := "M-e1", message := "M", channel := "CH", guild := "G", emoji := "e1"
    roles := ["R1"], max := maxSafeInteger
    isToggle := false, isReversed := false, isJustWin := false, isJustLose := false
    reqBoost := false, reqVerifiedDeveloper := false, disabled := false, winners := [] }

/-- Scenario (boot drift): state after the GIVE pass (C granted and appended). -/
def c4Mid (A B C R : String) : MState :=
  { reactionRoles :=
      [{ id := "M-e", message := "M", channel := "CH", guild := "G", emoji := "e"
         roles := [R], max := maxSafeInteger
         isToggle := false, isReversed := false, isJustWin := false, isJustLose := false
         reqBoost := false, reqVerifiedDeveloper := false, disabled := false
         winners := [A, B, C] }]
    warned := []
    pendingSettles := []
    world :=
      { guildRoles := [{ id := R, editable := true }]
        memberRoles := [(A, R), (B, R), (C, R)]
        reactions := [("M", "e", A), ("M", "e", C)]
        members := [plainMember A, plainMember B, plainMember C]
        botUsers := [] }
    events := [Ev.roleAdd C R] }

/-- Scenario (boot drift): final state (B revoked and removed). -/
def c4End (A B C R : String) : MState :=
  { reactionRoles :=
      [{ id := "M-e", message := "M", channel := "CH", guild := "G", emoji := "e"
         roles := [R], max := maxSafeInteger
         isToggle := false, isReversed := false, isJustWin := false, isJustLose := false
         reqBoost := false, reqVerifiedDeveloper := false, disabled := false
         winners := [A, C] }]
    warned := []
    pendingSettles := []
    world :=
      { guildRoles := [{ id := R, editable := true }]
        memberRoles := [(A, R), (C, R)]
        reactions := [("M", "e", A), ("M", "e", C)]
        members := [plainMember A, plainMember B, plainMember C]
        botUsers := [] }
    events := [Ev.roleAdd C R, Ev.roleRemove B R] }

/-- Number of `reactionRoleAdd` events in a log. -/
def countRoleAdd (evs : List Ev) : Nat :=
  (evs.filter (fun e => match e with | Ev.roleAdd _ _ => true | _ => false)).length

/-- Number of `reactionRoleRemove` events in a log. -/
def countRoleRemove (evs : List Ev) : Nat :=
  (evs.filter (fun e => match e with | Ev.roleRemove _ _ => true | _ => false)).length

/-- Number of `missingPermissions` events in a log that name the given role
for the given member. -/
def permCount (roleId memberId : String) (evs : List Ev) : Nat :=
  (evs.filter (fun e => match e with
    | Ev.missingPermissions _ mid rids _ => mid == memberId && rids.contains roleId
    | _ => false)).length

/-- Run a sequence of calls to the permission check
(action, binding, member id), threading the manager state. -/
def runPermChecks : List (RRAction × RR × String) → MState → MState
  | [], s => s
  | c :: rest, s => runPermChecks rest (checkRolesPermissions c.1 c.2.1 c.2.2 s).2

/-- Scenario (boot drift): a persisted NORMAL binding with winners `[A, B]`. -/
def c4Binding (A B R : String) : RR :=
  { id := "M-e", message := "M", channel := "CH", guild := "G", emoji := "e"
    roles := [R], max := maxSafeInteger
    isToggle := false, isReversed := false, isJustWin := false, isJustLose := false
    reqBoost := false, reqVerifiedDeveloper := false, disabled := false, winners := [A, B] }

/-- Scenario (boot drift): live reactor set enumerated `[A, C]`; `A` and `B`
hold the editable role `R`; all three members are in the guild, none is a
bot; no requirement flags are set, so every eligibility and authorization
check passes. -/
def c4Start (A B C R : String) : MState :=
  { reactionRoles := [c4Binding A B R]
    warned := []
    pendingSettles := []
    world :=
      { guildRoles := [{ id := R, editable := true }]
        memberRoles := [(A, R), (B, R)]
        reactions := [("M", "e", A), ("M", "e", C)]
        members := [plainMember A, plainMember B, plainMember C]
        botUsers := [] }
    events := [] }


/- ===== Helper lemmas ===== -/

theorem mem_resolveRoles {w : World} {ids : List String} {role : GuildRole}
    (h : role ∈ resolveRoles w ids) : role.id ∈ ids := by
  rcases List.mem_filterMap.mp h with ⟨i, hi, hfind⟩
  have hp := List.find?_some hfind
  have : role.id = i := by simpa using hp
  simpa [this] using hi

theorem checkRolesPermissions_fst (a : RRAction) (rr : RR) (mid : String) (s : MState) :
    (checkRolesPermissions a rr mid s).1 =
      (resolveRoles s.world rr.roles).filter (fun role => role.editable) := by
  simp only [checkRolesPermissions]
  split <;> rfl

theorem checkRolesPermissions_world (a : RRAction) (rr : RR) (mid : String) (s : MState) :
    (checkRolesPermissions a rr mid s).2.world = s.world := by
  simp only [checkRolesPermissions]
  split <;> rfl

theorem checkRolesPermissions_reactionRoles (a : RRAction) (rr : RR) (mid : String) (s : MState) :
    (checkRolesPermissions a rr mid s).2.reactionRoles = s.reactionRoles := by
  simp only [checkRolesPermissions]
  split <;> rfl

theorem checkRolesPermissions_countAdd (a : RRAction) (rr : RR) (mid : String) (s : MState) :
    countRoleAdd (checkRolesPermissions a rr mid s).2.events = countRoleAdd s.events := by
  simp only [checkRolesPermissions]
  split
  · simp [countRoleAdd, List.filter_append]
  · rfl

theorem checkRolesPermissions_countRemove (a : RRAction) (rr : RR) (mid : String) (s : MState) :
    countRoleRemove (checkRolesPermissions a rr mid s).2.events = countRoleRemove s.events := by
  simp only [checkRolesPermissions]
  split
  · simp [countRoleRemove, List.filter_append]
  · rfl

theorem checkRequirements_cases (rr : RR) (m : Member) (s : MState) :
    checkRequirements rr m s = (true, s) ∨ (checkRequirements rr m s).1 = false := by
  simp only [checkRequirements]
  split
  · right; rfl
  · split
    · right; rfl
    · left; rfl

theorem checkRequirements_memberRoles (rr : RR) (m : Member) (s : MState) :
    (checkRequirements rr m s).2.world.memberRoles = s.world.memberRoles := by
  simp only [checkRequirements]
  split
  · rfl
  · split <;> rfl

theorem checkRequirements_reactionRoles (rr : RR) (m : Member) (s : MState) :
    (checkRequirements rr m s).2.reactionRoles = s.reactionRoles := by
  simp only [checkRequirements]
  split
  · rfl
  · split <;> rfl

theorem checkRequirements_countAdd (rr : RR) (m : Member) (s : MState) :
    countRoleAdd (checkRequirements rr m s).2.events = countRoleAdd s.events := by
  simp only [checkRequirements]
  split
  · simp [countRoleAdd, List.filter_append]
  · split
    · simp [countRoleAdd, List.filter_append]
    · rfl

theorem checkRequirements_countRemove (rr : RR) (m : Member) (s : MState) :
    countRoleRemove (checkRequirements rr m s).2.events = countRoleRemove s.events := by
  simp only [checkRequirements]
  split
  · simp [countRoleRemove, List.filter_append]
  · split
    · simp [countRoleRemove, List.filter_append]
    · rfl

theorem find?_map_update (l : List RR) (rr2 : RR) (i : String) (hid : rr2.id = i)
    (h : (l.find? (fun r => r.id == i)).isSome) :
    (l.map (fun r => if r.id == rr2.id then rr2 else r)).find? (fun r => r.id == i) = some rr2 := by
  induction l with
  | nil => simp [List.find?] at h
  | cons a l ih =>
    by_cases ha : a.id = i
    · simp [List.find?, ha, hid]
    · have hbeq : (a.id == i) = false := beq_eq_false_iff_ne.mpr ha
      have hbeq2 : (a.id == rr2.id) = false := beq_eq_false_iff_ne.mpr (hid ▸ ha)
      simp only [List.map_cons, List.find?, hbeq2, Bool.false_eq_true, ite_false] at *
      rw [hbeq] at h ⊢
      exact ih h

theorem findRR_updateRR (s : MState) (rr2 : RR) (i : String) (hid : rr2.id = i)
    (h : (findRR s i).isSome) : findRR (updateRR s rr2) i = some rr2 := by
  unfold findRR updateRR at *
  exact find?_map_update _ _ _ hid h

theorem findRR_id {s : MState} {i : String} {rr : RR} (h : findRR s i = some rr) :
    rr.id = i := by
  have := List.find?_some h
  simpa using this

theorem findRR_congr {s1 s2 : MState} (h : s1.reactionRoles = s2.reactionRoles) (i : String) :
    findRR s1 i = findRR s2 i := by
  simp [findRR, h]

theorem giveRolesLoop_skip (hooks : Hooks) (m : Member) (lst : List GuildRole) (rr : RR)
    (s : MState) (h : ∀ role ∈ lst, hasRole s.world m.id role.id = true) :
    giveRolesLoop hooks m lst rr s = (rr, s) := by
  induction lst with
  | nil => rfl
  | cons role rest ih =>
    have hr : hasRole s.world m.id role.id = true := h role (List.mem_cons_self role rest)
    simp only [giveRolesLoop, hr, Bool.not_true, Bool.and_false, Bool.false_eq_true, if_false]
    exact ih (fun r hrm => h r (List.mem_cons_of_mem role hrm))

theorem giveRolesLoop_winners (hooks : Hooks) (m : Member) (lst : List GuildRole) (rr : RR)
    (s : MState) :
    (giveRolesLoop hooks m lst rr s).1 = rr ∨
      (m.id ∉ rr.winners ∧
        (giveRolesLoop hooks m lst rr s).1 = { rr with winners := rr.winners ++ [m.id] }) := by
  induction lst generalizing rr s with
  | nil => left; rfl
  | cons role rest ih =>
    simp only [giveRolesLoop]
    split
    · by_cases hc : m.id ∈ rr.winners
      · have hcb : rr.winners.contains m.id = true := List.elem_iff.mpr hc
        rw [hcb]
        simpa using ih rr _
      · have hcb : rr.winners.contains m.id = false := by
          rw [Bool.eq_false_iff]
          intro hx
          exact hc (List.elem_iff.mp hx)
        rw [hcb]
        simp only [Bool.false_eq_true, if_false]
        rcases ih { rr with winners := rr.winners ++ [m.id] }
          (emit (withWorld s (addRole s.world m.id role.id)) (Ev.roleAdd m.id role.id)) with h1 | h1
        · right; exact ⟨hc, h1⟩
        · exfalso
          have h2 := h1.1
          simp at h2
    · exact ih rr s

theorem giveRolesLoop_reactionRoles (hooks : Hooks) (m : Member) (lst : List GuildRole) (rr : RR)
    (s : MState) : (giveRolesLoop hooks m lst rr s).2.reactionRoles = s.reactionRoles := by
  induction lst generalizing rr s with
  | nil => rfl
  | cons role rest ih =>
    simp only [giveRolesLoop]
    split
    · exact ih _ _
    · exact ih _ _

theorem takeRolesLoop_skip (hooks : Hooks) (m : Member) (rrId : String) (lst : List GuildRole)
    (s : MState) (h : ∀ role ∈ lst, hasRole s.world m.id role.id = false) :
    takeRolesLoop hooks m rrId lst s = s := by
  induction lst with
  | nil => rfl
  | cons role rest ih =>
    have hr : hasRole s.world m.id role.id = false := h role (List.mem_cons_self role rest)
    simp only [takeRolesLoop, hr, Bool.and_false, Bool.false_eq_true, if_false]
    exact ih (fun r hrm => h r (List.mem_cons_of_mem role hrm))

theorem takeRolesLoop_reactionRoles (hooks : Hooks) (m : Member) (rrId : String)
    (lst : List GuildRole) (s : MState) :
    (takeRolesLoop hooks m rrId lst s).reactionRoles = s.reactionRoles := by
  induction lst generalizing s with
  | nil => rfl
  | cons role rest ih =>
    simp only [takeRolesLoop]
    split
    · exact ih _
    · exact ih _

theorem reactors_removeUserReaction (w : World) (msg emo u : String) :
    (reactors (removeUserReaction w msg emo u) msg emo).contains u = false := by
  by_contra hne
  have h' : (reactors (removeUserReaction w msg emo u) msg emo).contains u = true := by
    simpa using hne
  have hu : u ∈ reactors (removeUserReaction w msg emo u) msg emo := List.elem_iff.mp h'
  simp only [reactors, removeUserReaction, List.mem_map, List.mem_filter] at hu
  rcases hu with ⟨t, ⟨⟨ht, hcond⟩, hreact⟩, ht22⟩
  simp only [Bool.and_eq_true, beq_iff_eq] at hreact
  simp [hreact.1, hreact.2, ht22] at hcond

theorem handleRRA_unfold (hooks : Hooks) (a : RRAction) (m : Member) (rrId : String)
    (s : MState) (rr : RR) (hfind : findRR s rrId = some rr) (hd : rr.disabled = false) :
    handleReactionRoleAction hooks a m rrId s = handleBody hooks m rr s (effectiveAction rr a) := by
  rcases a <;> rcases hrev : rr.isReversed <;>
    simp [handleReactionRoleAction, hfind, hd, hrev, handleBody, effectiveAction]

theorem handleGive_empty_roles (hooks : Hooks) (m : Member) (rr : RR) (s1 : MState) :
    (handleGive hooks m rr [] s1).world.memberRoles = s1.world.memberRoles ∧
    countRoleAdd (handleGive hooks m rr [] s1).events = countRoleAdd s1.events ∧
    countRoleRemove (handleGive hooks m rr [] s1).events = countRoleRemove s1.events := by
  simp only [handleGive]
  split
  · exact ⟨rfl, rfl, rfl⟩
  · rcases checkRequirements_cases rr m s1 with hq | hq
    · rw [hq]
      simp only [Bool.not_true, Bool.false_eq_true, if_false]
      split
      · exact ⟨rfl, rfl, rfl⟩
      · exact ⟨rfl, rfl, rfl⟩
    · simp only [hq, Bool.not_false, if_true]
      exact ⟨checkRequirements_memberRoles rr m s1, checkRequirements_countAdd rr m s1,
        checkRequirements_countRemove rr m s1⟩

theorem handleTake_empty_roles (hooks : Hooks) (m : Member) (rr : RR) (s1 : MState) :
    (handleTake hooks m rr [] s1).world.memberRoles = s1.world.memberRoles ∧
    countRoleAdd (handleTake hooks m rr [] s1).events = countRoleAdd s1.events ∧
    countRoleRemove (handleTake hooks m rr [] s1).events = countRoleRemove s1.events := by
  exact ⟨rfl, rfl, rfl⟩

/- ===== Claim C5 ===== -/

/-- Claim C5, counterexample: the claim says that with an empty authorized
role subset the handler aborts with nothing to mutate, winners unchanged.  In
`c5Start` the binding's only role is unresolvable, so the authorized subset is
empty, yet processing a revoke event still splices the member out of
`winners` (from `["X"]` to `[]`). -/
theorem c5_empty_authorized_still_splices_winners :
    (resolveRoles c5Start.world c5Binding.roles).filter (fun r => r.editable) = [] ∧
    c5Binding.winners = ["X"] ∧
    (findRR c5Final "M-e1").map RR.winners = some [] := by
  decide

/-- Claim C5, amended: when the permission check returns an empty authorized
subset, the two role-mutation loops do nothing - no role is added or removed
from the member and no role-granted or role-revoked event is emitted - but
the handler does not abort: the revoke path still splices the member out of
`winners`, and the reaction-removing side effects of the capacity and
requirement checks still run. -/
theorem c5_empty_authorized_no_role_mutation (hooks : Hooks) (a : RRAction) (m : Member)
    (rrId : String) (s : MState) (rr : RR) (hfind : findRR s rrId = some rr)
    (hempty : (resolveRoles s.world rr.roles).filter (fun role => role.editable) = []) :
    (handleReactionRoleAction hooks a m rrId s).world.memberRoles = s.world.memberRoles ∧
    countRoleAdd (handleReactionRoleAction hooks a m rrId s).events = countRoleAdd s.events ∧
    countRoleRemove (handleReactionRoleAction hooks a m rrId s).events =
      countRoleRemove s.events := by
  by_cases hd : rr.disabled
  · simp [handleReactionRoleAction, hfind, hd]
  · rw [handleRRA_unfold hooks a m rrId s rr hfind (by simpa using hd)]
    generalize effectiveAction rr a = act
    simp only [handleBody]
    split
    · exact ⟨rfl, rfl, rfl⟩
    · split
      · exact ⟨rfl, rfl, rfl⟩
      · rcases act with _ | _
        · dsimp only
          have hp1 : (checkRolesPermissions RRAction.give rr m.id s).1 = [] := by
            rw [checkRolesPermissions_fst, hempty]
          rw [hp1]
          obtain ⟨e1, e2, e3⟩ :=
            handleGive_empty_roles hooks m rr (checkRolesPermissions RRAction.give rr m.id s).2
          refine ⟨?_, ?_, ?_⟩
          · rw [e1, checkRolesPermissions_world]
          · rw [e2, checkRolesPermissions_countAdd]
          · rw [e3, checkRolesPermissions_countRemove]
        · dsimp only
          have hp1 : (checkRolesPermissions RRAction.take rr m.id s).1 = [] := by
            rw [checkRolesPermissions_fst, hempty]
          rw [hp1]
          obtain ⟨f1, f2, f3⟩ :=
            handleTake_empty_roles hooks m rr (checkRolesPermissions RRAction.take rr m.id s).2
          refine ⟨?_, ?_, ?_⟩
          · rw [f1, checkRolesPermissions_world]
          · rw [f2, checkRolesPermissions_countAdd]
          · rw [f3, checkRolesPermissions_countRemove]

/-- Claim C5, witness: the amended theorem applied at the concrete
empty-authorized-subset scenario. -/
theorem c5_empty_authorized_no_role_mutation_witness :
    (handleReactionRoleAction trueHooks .take (plainMember "X") "M-e1" c5Start).world.memberRoles =
        c5Start.world.memberRoles ∧
    countRoleAdd (handleReactionRoleAction trueHooks .take (plainMember "X") "M-e1"
        c5Start).events = countRoleAdd c5Start.events ∧
    countRoleRemove (handleReactionRoleAction trueHooks .take (plainMember "X") "M-e1"
        c5Start).events = countRoleRemove c5Start.events :=
  c5_empty_authorized_no_role_mutation trueHooks .take (plainMember "X") "M-e1" c5Start
    c5Binding (by decide) (by decide)


theorem handleGive_all_held (hooks : Hooks) (m : Member) (rr : RR) (lst : List GuildRole)
    (s1 : MState) (hheld : ∀ role ∈ lst, hasRole s1.world m.id role.id = true)
    (hfind1 : findRR s1 rr.id = some rr) :
    (handleGive hooks m rr lst s1).world.memberRoles = s1.world.memberRoles ∧
    countRoleAdd (handleGive hooks m rr lst s1).events = countRoleAdd s1.events ∧
    findRR (handleGive hooks m rr lst s1) rr.id = some rr := by
  simp only [handleGive]
  split
  · exact ⟨rfl, rfl, hfind1⟩
  · rcases checkRequirements_cases rr m s1 with hq | hq
    · rw [hq]
      simp only [Bool.not_true, Bool.false_eq_true, if_false]
      split
      · exact ⟨rfl, rfl, hfind1⟩
      · rw [giveRolesLoop_skip hooks m lst rr s1 hheld]
        refine ⟨rfl, rfl, ?_⟩
        exact findRR_updateRR s1 rr rr.id rfl (by simp [hfind1])
    · simp only [hq, Bool.not_false, if_true]
      refine ⟨checkRequirements_memberRoles rr m s1, checkRequirements_countAdd rr m s1, ?_⟩
      rw [findRR_congr (checkRequirements_reactionRoles rr m s1) rr.id]
      exact hfind1

theorem handleTake_none_held (hooks : Hooks) (m : Member) (rr : RR) (lst : List GuildRole)
    (s1 : MState) (hnone : ∀ role ∈ lst, hasRole s1.world m.id role.id = false) :
    (handleTake hooks m rr lst s1).world.memberRoles = s1.world.memberRoles ∧
    countRoleRemove (handleTake hooks m rr lst s1).events = countRoleRemove s1.events := by
  simp only [handleTake, takeRolesLoop_skip hooks m rr.id lst s1 hnone]
  exact ⟨rfl, rfl⟩

/- ===== Claim C6 ===== -/

/-- Claim C6: grant and revoke are idempotent.  For a non-reversed binding:
if the member already holds every role of the binding, processing a grant
adds no role, emits no role-granted event, and leaves `winners` unchanged (in
particular no duplicate entry is appended); if the member holds none of the
binding's roles, processing a revoke removes no role and emits no
role-revoked event. -/
theorem c6_grant_revoke_idempotent (hooks : Hooks) (m : Member) (rrId : String) (s : MState) (rr : RR)
    (hfind : findRR s rrId = some rr) (hrev : rr.isReversed = false) :
    ((∀ rid ∈ rr.roles, hasRole s.world m.id rid = true) →
      (handleReactionRoleAction hooks .give m rrId s).world.memberRoles =
          s.world.memberRoles ∧
      countRoleAdd (handleReactionRoleAction hooks .give m rrId s).events =
          countRoleAdd s.events ∧
      (findRR (handleReactionRoleAction hooks .give m rrId s) rrId).map RR.winners =
          some rr.winners) ∧
    ((∀ rid ∈ rr.roles, hasRole s.world m.id rid = false) →
      (handleReactionRoleAction hooks .take m rrId s).world.memberRoles =
          s.world.memberRoles ∧
      countRoleRemove (handleReactionRoleAction hooks .take m rrId s).events =
          countRoleRemove s.events) := by
  have hid : rr.id = rrId := findRR_id hfind
  subst hid
  constructor
  · intro hheldAll
    by_cases hd : rr.disabled
    · simp [handleReactionRoleAction, hfind, hd]
    · rw [handleRRA_unfold hooks .give m rr.id s rr hfind (by simpa using hd)]
      have hact : effectiveAction rr .give = .give := by simp [effectiveAction, hrev]
      rw [hact]
      simp only [handleBody]
      split
      · refine ⟨rfl, rfl, ?_⟩
        rw [show findRR (withWorld s (removeUserReaction s.world rr.message rr.emoji m.id)) rr.id
          = some rr from hfind]
        rfl
      · split
        · refine ⟨rfl, rfl, ?_⟩
          rw [hfind]
          rfl
        · have hheld : ∀ role ∈ (checkRolesPermissions RRAction.give rr m.id s).1,
              hasRole (checkRolesPermissions RRAction.give rr m.id s).2.world m.id role.id
                = true := by
            intro role hrole
            rw [checkRolesPermissions_world]
            rw [checkRolesPermissions_fst] at hrole
            exact hheldAll role.id (mem_resolveRoles (List.mem_filter.mp hrole).1)
          have hfind1 : findRR (checkRolesPermissions RRAction.give rr m.id s).2 rr.id
              = some rr := by
            rw [findRR_congr (checkRolesPermissions_reactionRoles RRAction.give rr m.id s) rr.id]
            exact hfind
          obtain ⟨e1, e2, e3⟩ := handleGive_all_held hooks m rr
            (checkRolesPermissions RRAction.give rr m.id s).1
            (checkRolesPermissions RRAction.give rr m.id s).2 hheld hfind1
          refine ⟨?_, ?_, ?_⟩
          · rw [e1, checkRolesPermissions_world]
          · rw [e2, checkRolesPermissions_countAdd]
          · rw [e3]
            rfl
  · intro hnoneAll
    by_cases hd : rr.disabled
    · simp [handleReactionRoleAction, hfind, hd]
    · rw [handleRRA_unfold hooks .take m rr.id s rr hfind (by simpa using hd)]
      have hact : effectiveAction rr .take = .take := by simp [effectiveAction, hrev]
      rw [hact]
      simp only [handleBody]
      split
      · next hcond => simp at hcond
      · split
        · exact ⟨rfl, rfl⟩
        · have hnone : ∀ role ∈ (checkRolesPermissions RRAction.take rr m.id s).1,
              hasRole (checkRolesPermissions RRAction.take rr m.id s).2.world m.id role.id
                = false := by
            intro role hrole
            rw [checkRolesPermissions_world]
            rw [checkRolesPermissions_fst] at hrole
            exact hnoneAll role.id (mem_resolveRoles (List.mem_filter.mp hrole).1)
          obtain ⟨f1, f2⟩ := handleTake_none_held hooks m rr
            (checkRolesPermissions RRAction.take rr m.id s).1
            (checkRolesPermissions RRAction.take rr m.id s).2 hnone
          refine ⟨?_, ?_⟩
          · rw [f1, checkRolesPermissions_world]
          · rw [f2, checkRolesPermissions_countRemove]


/-- Claim C6, witness: the idempotence theorem applied at a concrete state in
which member `X` already holds the binding's only role. -/
theorem c6_grant_revoke_idempotent_witness :
    ((∀ rid ∈ c6Binding.roles, hasRole c6Start.world "X" rid = true) →
      (handleReactionRoleAction trueHooks .give (plainMember "X") "M-e1"
          c6Start).world.memberRoles = c6Start.world.memberRoles ∧
      countRoleAdd (handleReactionRoleAction trueHooks .give (plainMember "X") "M-e1"
          c6Start).events = countRoleAdd c6Start.events ∧
      (findRR (handleReactionRoleAction trueHooks .give (plainMember "X") "M-e1" c6Start)
          "M-e1").map RR.winners = some c6Binding.winners) ∧
    ((∀ rid ∈ c6Binding.roles, hasRole c6Start.world "X" rid = false) →
      (handleReactionRoleAction trueHooks .take (plainMember "X") "M-e1"
          c6Start).world.memberRoles = c6Start.world.memberRoles ∧
      countRoleRemove (handleReactionRoleAction trueHooks .take (plainMember "X") "M-e1"
          c6Start).events = countRoleRemove c6Start.events) :=
  c6_grant_revoke_idempotent trueHooks (plainMember "X") "M-e1" c6Start c6Binding
    (by decide) (by decide)

theorem handleGive_winners (hooks : Hooks) (m : Member) (rr : RR) (lst : List GuildRole)
    (s1 : MState) (hfind1 : findRR s1 rr.id = some rr) :
    ∃ rr', findRR (handleGive hooks m rr lst s1) rr.id = some rr' ∧
      (rr'.winners = rr.winners ∨
        (rr'.winners = rr.winners ++ [m.id] ∧
          ¬((rr.winners.length : Int) ≥ rr.max ∧ rr.max > 0))) := by
  simp only [handleGive]
  split
  · exact ⟨rr, hfind1, Or.inl rfl⟩
  · next hnc =>
    rcases checkRequirements_cases rr m s1 with hq | hq
    · rw [hq]
      simp only [Bool.not_true, Bool.false_eq_true, if_false]
      split
      · exact ⟨rr, hfind1, Or.inl rfl⟩
      · rcases giveRolesLoop_winners hooks m lst rr s1 with h1 | h1
        · rw [h1]
          refine ⟨rr, findRR_updateRR _ rr rr.id rfl ?_, Or.inl rfl⟩
          rw [findRR_congr (giveRolesLoop_reactionRoles hooks m lst rr s1) rr.id]
          simp [hfind1]
        · rw [h1.2]
          refine ⟨{ rr with winners := rr.winners ++ [m.id] }, ?_, Or.inr ⟨rfl, hnc⟩⟩
          have hrl : (giveRolesLoop hooks m lst rr s1).2.reactionRoles = s1.reactionRoles :=
            giveRolesLoop_reactionRoles hooks m lst rr s1
          refine findRR_updateRR _ { rr with winners := rr.winners ++ [m.id] } rr.id rfl ?_
          rw [findRR_congr hrl rr.id]
          simp [hfind1]
    · simp only [hq, Bool.not_false, if_true]
      refine ⟨rr, ?_, Or.inl rfl⟩
      rw [findRR_congr (checkRequirements_reactionRoles rr m s1) rr.id]
      exact hfind1

theorem handleTake_winners (hooks : Hooks) (m : Member) (rr : RR) (lst : List GuildRole)
    (s1 : MState) (hfind1 : findRR s1 rr.id = some rr) :
    ∃ rr', findRR (handleTake hooks m rr lst s1) rr.id = some rr' ∧
      (rr' = rr ∨ rr'.winners = rr.winners.erase m.id) := by
  simp only [handleTake]
  have hrl : (takeRolesLoop hooks m rr.id lst s1).reactionRoles = s1.reactionRoles :=
    takeRolesLoop_reactionRoles hooks m rr.id lst s1
  have hsome : (findRR (takeRolesLoop hooks m rr.id lst s1) rr.id).isSome := by
    rw [findRR_congr hrl rr.id]
    simp [hfind1]
  split
  · exact ⟨{ rr with winners := rr.winners.erase m.id },
      findRR_updateRR _ _ rr.id rfl hsome, Or.inr rfl⟩
  · exact ⟨rr, findRR_updateRR _ _ rr.id rfl hsome, Or.inl rfl⟩

/- ===== Claim C1 ===== -/

/-- Claim C1, counterexample: the claim asserts the `winners.size` bound holds
on every path that appends to winners, including the toggle settlement.  With
the TOGGLE binding `c1Binding` (`max = 1`) and two members reacting before
either scheduled settlement runs, each reaction passes the schedule-time
capacity check (winners is still empty), both settlements are pending, and
after both run `winners = ["X", "Y"]` - two winners on a `max = 1` binding,
because the settlement grant (line 820) never re-checks capacity. -/
theorem c1_toggle_settlement_exceeds_max :
    c1Binding.max = 1 ∧
    c1AfterHandlers.pendingSettles = [("X", "M", some "M-e1"), ("Y", "M", some "M-e1")] ∧
    (c1Final.map (fun s => (findRR s "M-e1").map RR.winners)) = some (some ["X", "Y"]) := by
  decide

/-- Claim C1, amended: the grant/revoke handler itself preserves
`winners.size <= max` for every binding with `max > 0` (the direct grant path
appends at most one winner and only below capacity, line 981), and a grant
attempt arriving with `winners` full is rejected: the member's reaction is
removed, no role-granted event is emitted, no role is added, and the binding
is unchanged.  The toggle-settlement path, by contrast, appends to `winners`
without re-checking capacity and can exceed the bound when settlements for
several members were scheduled while capacity remained (see the
counterexample). -/
theorem c1_direct_grant_bounded (hooks : Hooks) (a : RRAction) (m : Member) (rrId : String) (s : MState)
    (rr : RR) (hfind : findRR s rrId = some rr) (hmax : 0 < rr.max)
    (hbound : (rr.winners.length : Int) ≤ rr.max) :
    (∀ rr', findRR (handleReactionRoleAction hooks a m rrId s) rrId = some rr' →
      (rr'.winners.length : Int) ≤ rr.max) ∧
    (a = .give → rr.disabled = false → rr.isReversed = false → rr.isJustLose = false →
      (rr.winners.length : Int) ≥ rr.max →
      (reactors (handleReactionRoleAction hooks a m rrId s).world rr.message
          rr.emoji).contains m.id = false ∧
      countRoleAdd (handleReactionRoleAction hooks a m rrId s).events = countRoleAdd s.events ∧
      (handleReactionRoleAction hooks a m rrId s).world.memberRoles = s.world.memberRoles ∧
      findRR (handleReactionRoleAction hooks a m rrId s) rrId = some rr) := by
  have hid : rr.id = rrId := findRR_id hfind
  subst hid
  constructor
  · intro rr' hrr'
    by_cases hd : rr.disabled
    · rw [show handleReactionRoleAction hooks a m rr.id s = s by
        simp [handleReactionRoleAction, hfind, hd]] at hrr'
      rw [hfind] at hrr'
      cases hrr'
      exact hbound
    · rw [handleRRA_unfold hooks a m rr.id s rr hfind (by simpa using hd)] at hrr'
      generalize effectiveAction rr a = act at hrr'
      simp only [handleBody] at hrr'
      split at hrr'
      · rw [show findRR (withWorld s (removeUserReaction s.world rr.message rr.emoji m.id)) rr.id
          = some rr from hfind] at hrr'
        cases hrr'
        exact hbound
      · split at hrr'
        · rw [hfind] at hrr'
          cases hrr'
          exact hbound
        · rcases act with _ | _
          · have hfind1 : findRR (checkRolesPermissions RRAction.give rr m.id s).2 rr.id
                = some rr := by
              rw [findRR_congr (checkRolesPermissions_reactionRoles RRAction.give rr m.id s) rr.id]
              exact hfind
            obtain ⟨rr2, hrr2, hch⟩ := handleGive_winners hooks m rr
              (checkRolesPermissions RRAction.give rr m.id s).1
              (checkRolesPermissions RRAction.give rr m.id s).2 hfind1
            rw [hrr2] at hrr'
            cases hrr'
            rcases hch with hw | ⟨hw, hnc⟩
            · rw [hw]; exact hbound
            · rw [hw]
              simp only [List.length_append, List.length_singleton]
              push_cast
              omega
          · have hfind1 : findRR (checkRolesPermissions RRAction.take rr m.id s).2 rr.id
                = some rr := by
              rw [findRR_congr (checkRolesPermissions_reactionRoles RRAction.take rr m.id s) rr.id]
              exact hfind
            obtain ⟨rr2, hrr2, hch⟩ := handleTake_winners hooks m rr
              (checkRolesPermissions RRAction.take rr m.id s).1
              (checkRolesPermissions RRAction.take rr m.id s).2 hfind1
            rw [hrr2] at hrr'
            cases hrr'
            rcases hch with hw | hw
            · rw [hw]; exact hbound
            · rw [hw]
              have hle : (rr.winners.erase m.id).length ≤ rr.winners.length :=
                List.length_erase_le _ _
              calc ((rr.winners.erase m.id).length : Int) ≤ (rr.winners.length : Int) := by
                    exact_mod_cast hle
                _ ≤ rr.max := hbound
  · intro ha hd hrev hjl hfull
    subst ha
    rw [handleRRA_unfold hooks .give m rr.id s rr hfind hd]
    have hact : effectiveAction rr .give = .give := by simp [effectiveAction, hrev]
    rw [hact]
    simp only [handleBody, hjl, Bool.false_and, Bool.false_eq_true, if_false]
    have hjw : (rr.isJustWin && (RRAction.give == RRAction.take)) = false := by simp
    rw [hjw]
    simp only [Bool.false_eq_true, if_false]
    have hcap : ((rr.winners.length : Int) ≥ rr.max ∧ rr.max > 0) := ⟨hfull, hmax⟩
    rw [show handleGive hooks m rr (checkRolesPermissions RRAction.give rr m.id s).1
        (checkRolesPermissions RRAction.give rr m.id s).2 =
      withWorld (checkRolesPermissions RRAction.give rr m.id s).2
        (removeUserReaction (checkRolesPermissions RRAction.give rr m.id s).2.world
          rr.message rr.emoji m.id) by
        simp only [handleGive, if_pos hcap]]
    refine ⟨?_, ?_, ?_, ?_⟩
    · rw [show (withWorld (checkRolesPermissions RRAction.give rr m.id s).2
          (removeUserReaction (checkRolesPermissions RRAction.give rr m.id s).2.world
            rr.message rr.emoji m.id)).world =
        removeUserReaction (checkRolesPermissions RRAction.give rr m.id s).2.world
          rr.message rr.emoji m.id from rfl]
      exact reactors_removeUserReaction _ rr.message rr.emoji m.id
    · exact checkRolesPermissions_countAdd RRAction.give rr m.id s
    · rw [show (withWorld (checkRolesPermissions RRAction.give rr m.id s).2
          (removeUserReaction (checkRolesPermissions RRAction.give rr m.id s).2.world
            rr.message rr.emoji m.id)).world.memberRoles =
        (checkRolesPermissions RRAction.give rr m.id s).2.world.memberRoles from rfl]
      rw [checkRolesPermissions_world]
    · rw [findRR_congr (show (withWorld (checkRolesPermissions RRAction.give rr m.id s).2
          (removeUserReaction (checkRolesPermissions RRAction.give rr m.id s).2.world
            rr.message rr.emoji m.id)).reactionRoles = s.reactionRoles from
          checkRolesPermissions_reactionRoles RRAction.give rr m.id s) rr.id]
      exact hfind


/-- Claim C1, witness: the amended theorem applied at a concrete state with
one winner and a large `max`. -/
theorem c1_direct_grant_bounded_witness :
    (∀ rr', findRR (handleReactionRoleAction trueHooks .give (plainMember "Y") "M-e1" c6Start)
        "M-e1" = some rr' → (rr'.winners.length : Int) ≤ c6Binding.max) ∧
    (RRAction.give = .give → c6Binding.disabled = false → c6Binding.isReversed = false →
      c6Binding.isJustLose = false →
      (c6Binding.winners.length : Int) ≥ c6Binding.max →
      (reactors (handleReactionRoleAction trueHooks .give (plainMember "Y") "M-e1"
          c6Start).world c6Binding.message c6Binding.emoji).contains
          (plainMember "Y").id = false ∧
      countRoleAdd (handleReactionRoleAction trueHooks .give (plainMember "Y") "M-e1"
          c6Start).events = countRoleAdd c6Start.events ∧
      (handleReactionRoleAction trueHooks .give (plainMember "Y") "M-e1"
          c6Start).world.memberRoles = c6Start.world.memberRoles ∧
      findRR (handleReactionRoleAction trueHooks .give (plainMember "Y") "M-e1" c6Start)
          "M-e1" = some c6Binding) :=
  c1_direct_grant_bounded trueHooks .give (plainMember "Y") "M-e1" c6Start c6Binding
    (by decide) (by decide) (by decide)


/- ===== Claim C2 ===== -/

/-- Claim C2 (code bug), evaluation at the failing input: member `X` holds
role `R1` of the enabled TOGGLE binding `M-e1`, a settlement runs with kept
candidate `M-e2`, the role is editable and the default hooks allow the
revoke - yet afterwards `X` still holds `R1` and no role-removed event was
emitted (only the reaction was removed and `winners` spliced), because
line 789 tests `member.roles.cache.has(toggledRole.id)` - the binding's
composite `message-emoji` id - instead of the role id (contrast line 822 in
the grant half and the loop's own roleID at line 790). -/
theorem c2_settle_keeps_other_toggle_role :
    hasRole c2Start.world "X" "R1" = true ∧
    (c2Final.map (fun s =>
      (hasRole s.world "X" "R1",
       countRoleRemove s.events,
       reactors s.world "M" "e1",
       (findRR s "M-e1").map RR.winners))) = some (true, 0, [], some []) := by
  decide

/- ===== Claim C3 ===== -/

theorem deleteReactionRole_disabled (s : MState) (rrId : String)
    (h : (findRR s rrId).isSome) :
    (findRR (deleteReactionRole s rrId) rrId).map RR.disabled = some true := by
  unfold deleteReactionRole
  rcases hf : findRR s rrId with _ | rr
  · simp [hf] at h
  · dsimp only
    have hid : rr.id = rrId := findRR_id hf
    rw [findRR_updateRR s { rr with disabled := true } rrId hid (by simp [hf])]
    rfl

theorem handleDeleted_broken (env : DeleteEnv) (rrId : String) (s : MState)
    (hbroken : env.guildResolved = false ∨ env.channelPresent = false ∨
      env.messagePresent = false ∨ env.reactionPresent = false) :
    handleDeleted env rrId s = deleteReactionRole s rrId := by
  rcases env with ⟨g, c, mp, rp⟩
  rcases g <;> rcases c <;> rcases mp <;> rcases rp <;> simp_all [handleDeleted]

theorem handleRRA_disabled (hooks : Hooks) (a : RRAction) (m : Member) (rrId : String)
    (t : MState) (rr2 : RR) (hfind2 : findRR t rrId = some rr2) (hd2 : rr2.disabled = true) :
    handleReactionRoleAction hooks a m rrId t = t := by
  simp [handleReactionRoleAction, hfind2, hd2]

/-- Claim C3, counterexample: the claim says every externally deleted
reference (role included) leaves the binding disabled.  But __handleDeleted
disables only when its guild-channel-message-reaction resolution chain
breaks; for a deletion event with the whole chain still resolving (as when
only the referenced role is deleted), it merely removes the bot's reaction
and the binding stays enabled. -/
theorem c3_intact_chain_leaves_enabled :
    (findRR (handleDeleted c3IntactEnv "M-e1" c3Start) "M-e1").map RR.disabled = some false ∧
    (handleDeleted c3IntactEnv "M-e1" c3Start).world.reactions = [] := by
  decide

/-- Claim C3, amended: the binding is disabled exactly when the deletion
handler's resolution chain breaks - whenever the guild, channel, message or
bot reaction fails to resolve, the binding ends up with `disabled = true` -
and a disabled binding is excluded from reaction add/remove processing (the
grant/revoke handler is the identity on it).  When the whole chain still
resolves, the handler removes the bot's reaction and leaves the binding
enabled. -/
theorem c3_broken_chain_disables_and_excludes (env : DeleteEnv) (rrId : String) (s : MState)
    (rr : RR) (hfind : findRR s rrId = some rr)
    (hbroken : env.guildResolved = false ∨ env.channelPresent = false ∨
      env.messagePresent = false ∨ env.reactionPresent = false) :
    (findRR (handleDeleted env rrId s) rrId).map RR.disabled = some true ∧
    (∀ (hooks : Hooks) (a : RRAction) (m : Member) (t : MState) (rr2 : RR),
      findRR t rrId = some rr2 → rr2.disabled = true →
      handleReactionRoleAction hooks a m rrId t = t) := by
  constructor
  · rw [handleDeleted_broken env rrId s hbroken]
    exact deleteReactionRole_disabled s rrId (by simp [hfind])
  · intro hooks a m t rr2 hfind2 hd2
    exact handleRRA_disabled hooks a m rrId t rr2 hfind2 hd2

/-- Claim C3, witness: the amended theorem applied to a concrete deletion
event whose guild resolution fails. -/
theorem c3_broken_chain_disables_and_excludes_witness :
    (findRR (handleDeleted c3BrokenEnv "M-e1" c3Start) "M-e1").map RR.disabled = some true ∧
    (∀ (hooks : Hooks) (a : RRAction) (m : Member) (t : MState) (rr2 : RR),
      findRR t "M-e1" = some rr2 → rr2.disabled = true →
      handleReactionRoleAction hooks a m "M-e1" t = t) :=
  c3_broken_chain_disables_and_excludes c3BrokenEnv "M-e1" c3Start c3Binding
    (by decide) (Or.inl (by decide))


theorem permCount_append_named (evs : List Ev) (a : RRAction) (mid : String)
    (rids : List String) (rrId : String) (r m : String) :
    permCount r m (evs ++ [Ev.missingPermissions a mid rids rrId]) =
      permCount r m evs + (if (mid == m && rids.contains r) = true then 1 else 0) := by
  simp only [permCount, List.filter_append]
  split
  · simp_all
  · simp_all

theorem checkRolesPermissions_permInv (a : RRAction) (rr : RR) (mid : String) (s : MState)
    (r m : String)
    (h1 : permCount r m s.events ≤ 1)
    (h2 : 1 ≤ permCount r m s.events → s.warned.contains (rkey r m) = true) :
    permCount r m (checkRolesPermissions a rr mid s).2.events ≤ 1 ∧
    (1 ≤ permCount r m (checkRolesPermissions a rr mid s).2.events →
      (checkRolesPermissions a rr mid s).2.warned.contains (rkey r m) = true) := by
  simp only [checkRolesPermissions]
  split
  · by_cases hname : (mid == m &&
        (((resolveRoles s.world rr.roles).filter
          (fun role => !role.editable && !(s.warned.contains (rkey role.id mid)))).map
            (fun role => role.id)).contains r) = true
    · have hand := hname
      rw [Bool.and_eq_true] at hand
      have hmid : mid = m := beq_iff_eq.mp hand.1
      have hrmem : r ∈ ((resolveRoles s.world rr.roles).filter
          (fun role => !role.editable && !(s.warned.contains (rkey role.id mid)))).map
            (fun role => role.id) :=
        List.elem_iff.mp hand.2
      rcases List.mem_map.mp hrmem with ⟨role, hrole, hrid⟩
      have hfl := (List.mem_filter.mp hrole).2
      rw [Bool.and_eq_true] at hfl
      have hwfalse : s.warned.contains (rkey role.id mid) = false := by
        have hnw := hfl.2
        simpa using hnw
      have hw : s.warned.contains (rkey r m) = false := by
        rw [← hrid, ← hmid]
        exact hwfalse
      have hc0 : permCount r m s.events = 0 := by
        by_contra hne
        have : 1 ≤ permCount r m s.events := Nat.one_le_iff_ne_zero.mpr hne
        rw [h2 this] at hw
        cases hw
      constructor
      · rw [permCount_append_named, hc0, if_pos hname]
      · intro _
        have : rkey r m ∈ s.warned ++
            ((resolveRoles s.world rr.roles).filter
              (fun role => !role.editable && !(s.warned.contains (rkey role.id mid)))).map
                (fun role => rkey role.id mid) := by
          refine List.mem_append_right _ ?_
          refine List.mem_map.mpr ⟨role, hrole, ?_⟩
          rw [hrid, hmid]
        exact List.elem_iff.mpr this
    · have hname' : (mid == m &&
          (((resolveRoles s.world rr.roles).filter
            (fun role => !role.editable && !(s.warned.contains (rkey role.id mid)))).map
              (fun role => role.id)).contains r) = false := by
        simpa using hname
      constructor
      · rw [permCount_append_named, hname']
        simpa using h1
      · intro hone
        rw [permCount_append_named, hname'] at hone
        simp only [Bool.false_eq_true, if_false, Nat.add_zero] at hone
        have := h2 hone
        exact List.elem_iff.mpr (List.mem_append_left _ (List.elem_iff.mp this))
  · exact ⟨h1, h2⟩

theorem runPermChecks_permInv (calls : List (RRAction × RR × String)) (s : MState)
    (r m : String)
    (h1 : permCount r m s.events ≤ 1)
    (h2 : 1 ≤ permCount r m s.events → s.warned.contains (rkey r m) = true) :
    permCount r m (runPermChecks calls s).events ≤ 1 := by
  induction calls generalizing s with
  | nil => exact h1
  | cons c rest ih =>
    obtain ⟨g1, g2⟩ := checkRolesPermissions_permInv c.1 c.2.1 c.2.2 s r m h1 h2
    exact ih _ g1 g2

end DiscordCollector

namespace DiscordCollector


/- ===== Claim C7 ===== -/

/-- Claim C7: across any sequence of calls to the permission check starting
from a fresh event log, at most one `missingPermissions` event naming a given
(role, member) pair is ever emitted (the pair is recorded in the warned set
and never re-emitted), and every call returns exactly the editable subset of
the binding's resolved roles. -/
theorem c7_missing_permissions_warned_once (calls : List (RRAction × RR × String))
    (roleId memberId : String) (s : MState) (hev : s.events = []) :
    permCount roleId memberId (runPermChecks calls s).events ≤ 1 ∧
    (∀ (a : RRAction) (rr : RR) (mid : String) (t : MState),
      (checkRolesPermissions a rr mid t).1 =
        (resolveRoles t.world rr.roles).filter (fun role => role.editable)) := by
  constructor
  · apply runPermChecks_permInv
    · rw [hev]
      simp [permCount]
    · rw [hev]
      intro h
      simp [permCount] at h
  · intro a rr mid t
    exact checkRolesPermissions_fst a rr mid t

/-- Claim C7, witness: two consecutive checks against a non-editable role for
the same member still warn at most once. -/
theorem c7_missing_permissions_warned_once_witness :
    permCount "R1" "X"
        (runPermChecks [(.take, c6Binding, "X"), (.take, c6Binding, "X")] c7Start).events ≤ 1 ∧
    (∀ (a : RRAction) (rr : RR) (mid : String) (t : MState),
      (checkRolesPermissions a rr mid t).1 =
        (resolveRoles t.world rr.roles).filter (fun role => role.editable)) :=
  c7_missing_permissions_warned_once [(.take, c6Binding, "X"), (.take, c6Binding, "X")]
    "R1" "X" c7Start (by decide)

theorem readyInv_init : ReadyInv readyInit := by
  refine ⟨?_, ?_, ?_⟩ <;> simp [readyInit]

theorem readyInv_call (s : ReadyState) (h : ReadyInv s) : ReadyInv (readyTimeoutStep s) := by
  obtain ⟨h1, h2, h3⟩ := h
  simp only [readyTimeoutStep]
  split
  · next hr =>
    refine ⟨fun _ => ⟨(h1 hr).1, rfl⟩, ?_, ?_⟩
    · intro hf
      rw [hf] at hr
      cases hr
    · intro d hd
      cases hd
  · next hr =>
    have hr' : s.isReady = false := by
      revert hr
      rcases s.isReady with _ | _ <;> simp
    refine ⟨?_, fun _ => h2 hr', ?_⟩
    · intro hf
      rw [hf] at hr'
      cases hr'
    · intro d hd
      cases hd
      rfl

theorem readyInv_fire (s : ReadyState) (h : ReadyInv s) : ReadyInv (fireReadyStep s) := by
  obtain ⟨h1, h2, h3⟩ := h
  simp only [fireReadyStep]
  split
  · exact ⟨h1, h2, h3⟩
  · next d hd =>
    have hrf : s.isReady = false := by
      by_contra hx
      have : s.isReady = true := by
        revert hx
        rcases s.isReady with _ | _ <;> simp
      have := (h1 this).2
      rw [this] at hd
      cases hd
    refine ⟨fun _ => ⟨?_, rfl⟩, ?_, ?_⟩
    · rw [h2 hrf]
    · intro hx
      cases hx
    · intro d2 hd2
      cases hd2

theorem runReady_inv (tr : List ReadyOp) (s : ReadyState) (h : ReadyInv s) :
    ReadyInv (runReady tr s) := by
  induction tr generalizing s with
  | nil => exact h
  | cons op rest ih =>
    rcases op with _ | _
    · exact ih _ (readyInv_call s h)
    · exact ih _ (readyInv_fire s h)

theorem runReady_fixed (tr : List ReadyOp) (s : ReadyState) (hr : s.isReady = true)
    (hp : s.pending = none) : runReady tr s = s := by
  induction tr with
  | nil => rfl
  | cons op rest ih =>
    rcases op with _ | _
    · have hstep : readyTimeoutStep s = s := by
        simp only [readyTimeoutStep]
        split
        · cases s
          simp_all
        · next hx => rw [hr] at hx; simp at hx
      simp only [runReady, hstep, ih]
    · have hstep : fireReadyStep s = s := by
        simp only [fireReadyStep, hp]
      simp only [runReady, hstep, ih]

/- ===== Claim C8 ===== -/

/-- Claim C8: along every sequence of readiness-gate events (binding-finished
calls to __readyTimeout and timer firings) from the initial state, the
`ready` event is emitted at most once; once the manager is ready it is never
emitted again (any further sequence leaves the count at exactly one); each
call made before readiness cancels the pending timer and restarts a fresh
5000 ms one; and whenever a timer is pending its delay is the 5-second
constant, and its firing marks the manager ready with the count at exactly
one.  (The real-time "5 seconds after the last binding" is represented by
the 5000 ms delay carried by the pending timer; the runtime fires it only
when no later call has replaced it.) -/
theorem c8_ready_emitted_at_most_once (tr : List ReadyOp) :
    (runReady tr readyInit).readyCount ≤ 1 ∧
    ((runReady tr readyInit).isReady = true → (runReady tr readyInit).readyCount = 1 ∧
      ∀ tr2, (runReady tr2 (runReady tr readyInit)).readyCount = 1) ∧
    ((runReady tr readyInit).isReady = false →
      (readyTimeoutStep (runReady tr readyInit)).pending = some 5000) ∧
    (∀ d, (runReady tr readyInit).pending = some d →
      d = 5000 ∧ (fireReadyStep (runReady tr readyInit)).isReady = true ∧
      (fireReadyStep (runReady tr readyInit)).readyCount = 1) := by
  obtain ⟨h1, h2, h3⟩ := runReady_inv tr readyInit readyInv_init
  refine ⟨?_, ?_, ?_, ?_⟩
  · rcases hr : (runReady tr readyInit).isReady with _ | _
    · rw [h2 hr]
      exact Nat.zero_le 1
    · rw [(h1 hr).1]
  · intro hr
    refine ⟨(h1 hr).1, fun tr2 => ?_⟩
    rw [runReady_fixed tr2 _ hr (h1 hr).2]
    exact (h1 hr).1
  · intro hr
    simp [readyTimeoutStep, hr]
  · intro d hd
    have hrf : (runReady tr readyInit).isReady = false := by
      by_contra hx
      have hx' : (runReady tr readyInit).isReady = true := by
        revert hx
        rcases (runReady tr readyInit).isReady with _ | _ <;> simp
      have := (h1 hx').2
      rw [this] at hd
      cases hd
    refine ⟨h3 d hd, ?_, ?_⟩
    · simp [fireReadyStep, hd]
    · simp [fireReadyStep, hd, h2 hrf]


/-- Claim C8, witness: the readiness theorem applied to the trace of one
binding completion followed by the timer firing. -/
theorem c8_ready_emitted_at_most_once_witness :
    (runReady [ReadyOp.call, ReadyOp.fire] readyInit).readyCount ≤ 1 ∧
    ((runReady [ReadyOp.call, ReadyOp.fire] readyInit).isReady = true →
      (runReady [ReadyOp.call, ReadyOp.fire] readyInit).readyCount = 1 ∧
      ∀ tr2, (runReady tr2 (runReady [ReadyOp.call, ReadyOp.fire] readyInit)).readyCount = 1) ∧
    ((runReady [ReadyOp.call, ReadyOp.fire] readyInit).isReady = false →
      (readyTimeoutStep (runReady [ReadyOp.call, ReadyOp.fire] readyInit)).pending =
        some 5000) ∧
    (∀ d, (runReady [ReadyOp.call, ReadyOp.fire] readyInit).pending = some d →
      d = 5000 ∧
      (fireReadyStep (runReady [ReadyOp.call, ReadyOp.fire] readyInit)).isReady = true ∧
      (fireReadyStep (runReady [ReadyOp.call, ReadyOp.fire] readyInit)).readyCount = 1) :=
  c8_ready_emitted_at_most_once [ReadyOp.call, ReadyOp.fire]


/- ===== Claim C9 ===== -/

/-- Claim C9: `createReactionRole` normalizes an absent, zero, negative, or
larger-than-`Number.MAX_SAFE_INTEGER` `max` to `Number.MAX_SAFE_INTEGER`
(line 536); the normalized value is always positive, and every binding a
successful registration constructs carries it - so "unbounded" is
represented internally by `Number.MAX_SAFE_INTEGER`, never by 0. -/
theorem c9_created_max_positive :
    (∀ maxIn : Option Int,
      (maxIn = none ∨ maxIn = some 0 ∨ ∃ v, maxIn = some v ∧ (v < 0 ∨ maxSafeInteger < v)) →
      normalizeMax maxIn = maxSafeInteger) ∧
    (∀ maxIn : Option Int, 0 < normalizeMax maxIn) ∧
    (∀ (gm tv : Bool) (rs : List String) (emo : Option String) (maxIn : Option Int)
        (msgId chId gId : String) (t1 t2 t3 t4 b1 b2 : Bool) (rr : RR),
      createReactionRole gm tv rs emo maxIn msgId chId gId t1 t2 t3 t4 b1 b2 = some rr →
      rr.max = normalizeMax maxIn ∧ 0 < rr.max) := by
  have hpos : ∀ maxIn : Option Int, 0 < normalizeMax maxIn := by
    intro maxIn
    rcases maxIn with _ | v
    · decide
    · simp only [normalizeMax]
      split
      · decide
      · next hfalse =>
        simp only [Bool.or_eq_true, beq_iff_eq, decide_eq_true_eq, not_or] at hfalse
        simp only [maxSafeInteger] at hfalse
        omega
  refine ⟨?_, hpos, ?_⟩
  · intro maxIn h
    rcases h with h | h | ⟨v, hv, hcase⟩
    · subst h; rfl
    · subst h; rfl
    · subst hv
      simp only [normalizeMax]
      split
      · rfl
      · next hfalse =>
        exfalso
        simp only [Bool.or_eq_true, beq_iff_eq, decide_eq_true_eq, not_or] at hfalse
        simp only [maxSafeInteger] at hfalse hcase
        omega
  · intro gm tv rs emo maxIn msgId chId gId t1 t2 t3 t4 b1 b2 rr h
    simp only [createReactionRole] at h
    split at h
    · cases h
    · split at h
      · cases h
      · split at h
        · cases h
        · rcases emo with _ | e
          · cases h
          · simp only [Option.some.injEq] at h
            subst h
            exact ⟨rfl, hpos maxIn⟩

/-- Claim C9, witness: a negative supplied max normalizes to
`Number.MAX_SAFE_INTEGER`; a positive one stays positive; a concrete
registration with `max = 0` constructs a binding whose `max` is the
normalized (positive) value. -/
theorem c9_created_max_positive_witness :
    normalizeMax (some (-5)) = maxSafeInteger ∧
    0 < normalizeMax (some 3) ∧
    (c9Created.max = normalizeMax (some 0) ∧ 0 < c9Created.max) :=
  ⟨c9_created_max_positive.1 (some (-5)) (Or.inr (Or.inr ⟨-5, rfl, Or.inl (by decide)⟩)),
   c9_created_max_positive.2.1 (some 3),
   c9_created_max_positive.2.2 true true ["R1"] (some "e1") (some 0) "M" "CH" "G"
     false false false false false false c9Created (by decide)⟩

/- ===== Claim C10 ===== -/

/-- Claim C10: an all-reactions-cleared event on a message with no registered
reaction-role binding is a no-op - the handler returns before disabling any
binding, removing any role, touching any winners list, or emitting an
`allReactionsRemove` event (the whole state is unchanged). -/
theorem c10_remove_all_no_binding_noop (hooks : Hooks) (msgId : String) (s : MState)
    (h : s.reactionRoles.filter (fun r => r.message == msgId) = []) :
    onRemoveAllReaction hooks msgId s = s := by
  simp only [onRemoveAllReaction, h]
  rfl

/-- Claim C10, witness: clearing reactions on a message with no binding
registered leaves the concrete state untouched. -/
theorem c10_remove_all_no_binding_noop_witness :
    onRemoveAllReaction trueHooks "OTHER" c6Start = c6Start :=
  c10_remove_all_no_binding_noop trueHooks "OTHER" c6Start (by decide)


/- ===== Claim C4 ===== -/

/-- Running the boot reconciliation on the drift scenario yields exactly the
expected end state. -/
theorem c4_boot_reconcile_run (A B C R : String) (hAB : A ≠ B) (hAC : A ≠ C) (hBC : B ≠ C) :
    bootReconcileBinding trueHooks "M-e" (c4Start A B C R) = c4End A B C R := by
  have hab : (A == B) = false := beq_eq_false_iff_ne.mpr hAB
  have hba : (B == A) = false := beq_eq_false_iff_ne.mpr (Ne.symm hAB)
  have hac : (A == C) = false := beq_eq_false_iff_ne.mpr hAC
  have hca : (C == A) = false := beq_eq_false_iff_ne.mpr (Ne.symm hAC)
  have hbc : (B == C) = false := beq_eq_false_iff_ne.mpr hBC
  have hcb : (C == B) = false := beq_eq_false_iff_ne.mpr (Ne.symm hBC)
  have hca' : ¬(C = A) := Ne.symm hAC
  have hcb' : ¬(C = B) := Ne.symm hBC
  have hba' : ¬(B = A) := Ne.symm hAB
  have hbc' : ¬(B = C) := hBC
  have hstep1 : handleReactionRoleAction trueHooks .give (plainMember A) "M-e"
      (c4Start A B C R) = c4Start A B C R := by
    simp [handleReactionRoleAction, c4Start, c4Binding, findRR, trueHooks, plainMember,
      checkRolesPermissions, resolveRoles, hasRole, checkRequirements, checkBoostRequirement,
      checkDeveloperRequirement, giveRolesLoop, updateRR, handleGive, maxSafeInteger,
      List.find?, emit, withWorld, addRole]
  have hstep2 : handleReactionRoleAction trueHooks .give (plainMember C) "M-e"
      (c4Start A B C R) = c4Mid A B C R := by
    simp [handleReactionRoleAction, c4Start, c4Binding, c4Mid, findRR, trueHooks, plainMember,
      checkRolesPermissions, resolveRoles, hasRole, checkRequirements, checkBoostRequirement,
      checkDeveloperRequirement, giveRolesLoop, updateRR, handleGive, maxSafeInteger,
      List.find?, emit, withWorld, addRole, hac, hbc, hca, hcb, hca', hcb']
  have hstep3 : handleReactionRoleAction trueHooks .take (plainMember B) "M-e"
      (c4Mid A B C R) = c4End A B C R := by
    simp [handleReactionRoleAction, c4Mid, c4End, findRR, trueHooks, plainMember,
      checkRolesPermissions, resolveRoles, hasRole, takeRolesLoop, updateRR, handleTake,
      maxSafeInteger, List.find?, emit, withWorld, removeRole, List.erase,
      hab, hba, hbc, hcb, hba', hbc']
  have hfind0 : findRR (c4Start A B C R) "M-e" = some (c4Binding A B R) := by
    simp [findRR, c4Start, c4Binding, List.find?]
  have husers : reactors (c4Start A B C R).world "M" "e" = [A, C] := by
    simp [reactors, c4Start]
  have hbots0 : ∀ u, (c4Start A B C R).world.botUsers.contains u = false := by
    intro u; rfl
  have hfindA : (c4Start A B C R).world.members.find? (fun mm => mm.id == A) =
      some (plainMember A) := by
    simp [c4Start, plainMember, List.find?]
  have hfindC : (c4Start A B C R).world.members.find? (fun mm => mm.id == C) =
      some (plainMember C) := by
    simp [c4Start, plainMember, List.find?, hac, hbc]
  have hgive : bootGiveLoop trueHooks "M-e" [A, C] (c4Start A B C R) = c4Mid A B C R := by
    simp only [bootGiveLoop, hbots0, hfindA, hstep1, hfindC, hstep2, Bool.false_eq_true,
      if_false]
  have hfindMid : findRR (c4Mid A B C R) "M-e" = some
      { id := "M-e", message := "M", channel := "CH", guild := "G", emoji := "e"
        roles := [R], max := maxSafeInteger
        isToggle := false, isReversed := false, isJustWin := false, isJustLose := false
        reqBoost := false, reqVerifiedDeveloper := false, disabled := false
        winners := [A, B, C] } := by
    simp [findRR, c4Mid, List.find?]
  have hfindEnd : findRR (c4End A B C R) "M-e" = some
      { id := "M-e", message := "M", channel := "CH", guild := "G", emoji := "e"
        roles := [R], max := maxSafeInteger
        isToggle := false, isReversed := false, isJustWin := false, isJustLose := false
        reqBoost := false, reqVerifiedDeveloper := false, disabled := false
        winners := [A, C] } := by
    simp [findRR, c4End, List.find?]
  have hbotsMid : ∀ u, (c4Mid A B C R).world.botUsers.contains u = false := by
    intro u; rfl
  have hfindMidA : (c4Mid A B C R).world.members.find? (fun mm => mm.id == A) =
      some (plainMember A) := by
    simp [c4Mid, plainMember, List.find?]
  have hfindMidB : (c4Mid A B C R).world.members.find? (fun mm => mm.id == B) =
      some (plainMember B) := by
    simp [c4Mid, plainMember, List.find?, hab]
  have hwin : bootWinnersLoop trueHooks "M-e" [A, C] 3 0 (c4Mid A B C R) = c4End A B C R := by
    rw [show (3 : Nat) = 0 + 1 + 1 + 1 from rfl]
    simp [bootWinnersLoop, hfindMid, hbotsMid, hfindMidA, hfindMidB, hba', hbc', hstep3,
      hfindEnd]
    intro habs
    simp [c4Mid] at habs
  simp only [bootReconcileBinding, hfind0]
  dsimp only [c4Binding]
  rw [husers, hgive, hfindMid]
  dsimp only
  rw [show ([A, B, C] : List String).length = 3 from rfl]
  exact hwin

/-- Claim C4: boot drift resolution.  For a persisted binding with
`winners = [A, B]` and live reactor set `[A, C]` (all three distinct members
present in the guild, none a bot, the role editable, no requirement flags, so
every eligibility and authorization check passes), boot reconciliation yields
`winners = [A, C]`: `C` is granted the role and appended, `B` is revoked and
removed, and `A` is untouched - `A` keeps the role, keeps its winners slot,
and appears in no emitted event. -/
theorem c4_boot_drift (A B C R : String) (hAB : A ≠ B) (hAC : A ≠ C) (hBC : B ≠ C) :
    (findRR (bootReconcileBinding trueHooks "M-e" (c4Start A B C R)) "M-e").map RR.winners =
      some [A, C] ∧
    (bootReconcileBinding trueHooks "M-e" (c4Start A B C R)).world.memberRoles =
      [(A, R), (C, R)] ∧
    (bootReconcileBinding trueHooks "M-e" (c4Start A B C R)).events =
      [Ev.roleAdd C R, Ev.roleRemove B R] := by
  rw [c4_boot_reconcile_run A B C R hAB hAC hBC]
  refine ⟨?_, rfl, rfl⟩
  simp [findRR, c4End, List.find?]

/-- Claim C4, witness: the drift theorem applied at concrete distinct ids. -/
theorem c4_boot_drift_witness :
    (findRR (bootReconcileBinding trueHooks "M-e" (c4Start "A" "B" "C" "R")) "M-e").map
      RR.winners = some ["A", "C"] ∧
    (bootReconcileBinding trueHooks "M-e" (c4Start "A" "B" "C" "R")).world.memberRoles =
      [("A", "R"), ("C", "R")] ∧
    (bootReconcileBinding trueHooks "M-e" (c4Start "A" "B" "C" "R")).events =
      [Ev.roleAdd "C" "R", Ev.roleRemove "B" "R"] :=
  c4_boot_drift "A" "B" "C" "R" (by decide) (by decide) (by decide)

end DiscordCollector
